import Mathlib

/-!
RAM role / policy reconciliation (`lib/ram.js`)

A shallow embedding of `makePolicy`, `attachPolicyToRole`, `makeRole` and
`makeAndAttachPolicy`, and the proofs of their documented properties.

* Remote calls go through a client record `RamClient σ` over an arbitrary
  provider state `σ`: the object `getRamClient` returns, with the errors its
  methods raise.  Every call a function issues is recorded, together with the
  error it raised (if any), so that statements about which calls were made are
  statements about the recorded events.
* The retry driver `./retry` is modelled by `promiseRetry`, with the bound on
  the number of retries as a parameter.  A retried operation returns how it
  ended: it returned, it called `retry(ex)`, or it threw.
* Console output, debug logging and the delays between invocations are left out.
* Statements about provider states (stored versions, attachment records) are
  made against the reference provider `Provider.client`; failures are injected
  with `RamClient.withScript`.
-/

namespace Ram

/-! ## Errors and JSON documents -/

/-- A thrown JavaScript error as the reconcilers inspect it: `ex.code` (may be
undefined), `ex.name` and the message. -/
structure Err where
  code : Option String
  name : String
  message : String
deriving DecidableEq, Repr

/-- The value of `new Error(message)`: no `code`, name `Error`. -/
def Err.plain (message : String) : Err :=
  { code := none, name := "Error", message := message }

/-- The test `ex.code && ex.code === 'NoPermission'`. -/
def Err.isNoPermission (ex : Err) : Bool :=
  ex.code == some "NoPermission"

/-- The test `ex.code && ex.code.startsWith('InvalidParameter')`. -/
def Err.isInvalidParameter (ex : Err) : Bool :=
  match ex.code with
  | some c => "InvalidParameter".toList.isPrefixOf c.toList
  | none => false

/-- JSON documents: the values `JSON.stringify` is applied to, built from
`null`, booleans, strings, arrays and objects (numbers, whose text form is that
of a floating-point value, are left out).  The fields of an object are listed in
enumeration order. -/
inductive Json where
  | null
  | bool (b : Bool)
  | str (s : String)
  | arr (items : List Json)
  | obj (fields : List (String × Json))

/-- JavaScript truthiness of a JSON value (`!assumeRolePolicy` is its negation). -/
def Json.truthy : Json → Bool
  | .null => false
  | .bool b => b
  | .str s => s != ""
  | .arr _ => true
  | .obj _ => true

/-- Lower-case hexadecimal digit of a number below 16. -/
def hexDigit (n : Nat) : Char :=
  if n < 10 then Char.ofNat (48 + n) else Char.ofNat (87 + n)

/-- The characters `JSON.stringify` writes for one character of a string. -/
def quoteChar (c : Char) : List Char :=
  let n := c.toNat
  if n = 34 then [Char.ofNat 92, Char.ofNat 34]
  else if n = 92 then [Char.ofNat 92, Char.ofNat 92]
  else if n = 8 then [Char.ofNat 92, Char.ofNat 98]
  else if n = 9 then [Char.ofNat 92, Char.ofNat 116]
  else if n = 10 then [Char.ofNat 92, Char.ofNat 110]
  else if n = 12 then [Char.ofNat 92, Char.ofNat 102]
  else if n = 13 then [Char.ofNat 92, Char.ofNat 114]
  else if n < 32 then
    [Char.ofNat 92, Char.ofNat 117, Char.ofNat 48, Char.ofNat 48, hexDigit (n / 16), hexDigit (n % 16)]
  else [c]

/-- The quoted form of a string in `JSON.stringify` output. -/
def quoteString (s : String) : String :=
  String.mk (Char.ofNat 34 :: (s.toList.flatMap quoteChar ++ [Char.ofNat 34]))

mutual
/-- The text `JSON.stringify(value)` produces (no indentation). -/
def Json.stringify : Json → String
  | .null => "null"
  | .bool true => "true"
  | .bool false => "false"
  | .str s => quoteString s
  | .arr items => "[" ++ Json.stringifyItems items ++ "]"
  | .obj fields => "\x7b" ++ Json.stringifyFields fields ++ "\x7d"
/-- The comma-separated elements of an array. -/
def Json.stringifyItems : List Json → String
  | [] => ""
  | [x] => x.stringify
  | x :: y :: rest => x.stringify ++ "," ++ Json.stringifyItems (y :: rest)
/-- The comma-separated `"key":value` members of an object. -/
def Json.stringifyFields : List (String × Json) → String
  | [] => ""
  | [(k, v)] => quoteString k ++ ":" ++ v.stringify
  | (k, v) :: f :: rest =>
    quoteString k ++ ":" ++ v.stringify ++ "," ++ Json.stringifyFields (f :: rest)
end

/-- The trust document `makeRole` falls back to: the compute service principal. -/
def fcAssumeRolePolicy : Json :=
  .obj [("Statement", .arr [.obj [("Action", .str "sts:AssumeRole"), ("Effect", .str "Allow"),
      ("Principal", .obj [("Service", .arr [.str "fc.aliyuncs.com"])])]]),
    ("Version", .str "1")]

/-- The exported constant `FNF_ASSUME_ROLE_POLICY`. -/
def FNF_ASSUME_ROLE_POLICY : Json :=
  .obj [("Statement", .arr [.obj [("Action", .str "sts:AssumeRole"), ("Effect", .str "Allow"),
      ("Principal", .obj [("Service", .arr [.str "fnf.aliyuncs.com"])])]]),
    ("Version", .str "1")]

/-- The function `normalizeRoleOrPoliceName`: every underscore becomes a hyphen. -/
def normalizeRoleOrPoliceName (roleName : String) : String :=
  roleName.map (fun c => if c = Char.ofNat 95 then Char.ofNat 45 else c)

/-! ## Remote calls -/

/-- One remote operation together with the parameters it was sent. -/
inductive Call where
  | getPolicy (PolicyType PolicyName : String)
  | createPolicy (PolicyName Description PolicyDocument : String)
  | listPolicyVersions (PolicyType PolicyName : String)
  | deletePolicyVersion (PolicyName VersionId : String)
  | createPolicyVersion (PolicyName PolicyDocument : String) (SetAsDefault : Bool)
  | listPoliciesForRole (RoleName : String)
  | attachPolicyToRole (PolicyType PolicyName RoleName : String)
  | getRole (RoleName : String)
  | createRole (RoleName Description AssumeRolePolicyDocument : String)
deriving DecidableEq, Repr

/-- A remote call that was issued, and the error it raised (`none`: it returned). -/
structure Event where
  call : Call
  error : Option Err
deriving DecidableEq, Repr

/-- One entry of `listResponse.PolicyVersions.PolicyVersion`.  The flag is
`none` when the property is absent or not a boolean, so that
`version.IsDefaultVersion === false` is `IsDefaultVersion = some false`. -/
structure PolicyVersion where
  VersionId : String
  IsDefaultVersion : Option Bool
deriving DecidableEq, Repr

/-- The property `PolicyVersions` of a `listPolicyVersions` response. -/
structure PolicyVersions where
  PolicyVersion : Option (List PolicyVersion)
deriving DecidableEq, Repr

/-- A `listPolicyVersions` response; the collection may be missing. -/
structure ListPolicyVersionsResponse where
  PolicyVersions : Option PolicyVersions
deriving DecidableEq, Repr

/-- One entry of `policies.Policies.Policy`. -/
structure AttachedPolicy where
  PolicyName : String
  PolicyType : String
deriving DecidableEq, Repr

/-- The property `Policies` of a `listPoliciesForRole` response. -/
structure Policies where
  Policy : List AttachedPolicy
deriving DecidableEq, Repr

/-- A `listPoliciesForRole` response. -/
structure ListPoliciesForRoleResponse where
  Policies : Policies
deriving DecidableEq, Repr

/-- The response of `getRole` and of `createRole`: the role representation. -/
structure RoleResponse where
  RoleName : String
  Description : String
  AssumeRolePolicyDocument : String
deriving DecidableEq, Repr

/-- The client `getRamClient` returns, over a provider state `σ`: each
operation either returns a response or raises an error, and may change the
provider state in both cases. -/
structure RamClient (σ : Type) where
  getPolicy : String → String → σ → Except Err Unit × σ
  createPolicy : String → String → String → σ → Except Err Unit × σ
  listPolicyVersions : String → String → σ → Except Err ListPolicyVersionsResponse × σ
  deletePolicyVersion : String → String → σ → Except Err Unit × σ
  createPolicyVersion : String → String → Bool → σ → Except Err Unit × σ
  listPoliciesForRole : String → σ → Except Err ListPoliciesForRoleResponse × σ
  attachPolicyToRole : String → String → String → σ → Except Err Unit × σ
  getRole : String → σ → Except Err RoleResponse × σ
  createRole : String → String → String → σ → Except Err RoleResponse × σ

deriving instance DecidableEq for Except

/-- The error of a result, if it is one. -/
def errorOf {α : Type} : Except Err α → Option Err
  | .error ex => some ex
  | .ok _ => none

/-- What a piece of code did: its result, the provider state it left, and the
remote calls it issued, oldest first. -/
structure Step (σ α : Type) where
  result : Except Err α
  state : σ
  events : List Event

/-- Issue one remote call and record it. -/
def request {σ α : Type} (c : Call) (op : σ → Except Err α × σ) (s : σ) : Step σ α :=
  { result := (op s).1, state := (op s).2, events := [{ call := c, error := errorOf (op s).1 }] }

/-- Sequencing of `await`s: the continuation runs only when the first part returned. -/
def Step.andThen {σ α β : Type} (a : Step σ α) (f : α → σ → Step σ β) : Step σ β :=
  match a.result with
  | .error ex => { result := .error ex, state := a.state, events := a.events }
  | .ok x => { result := (f x a.state).result, state := (f x a.state).state,
               events := a.events ++ (f x a.state).events }

/-- The same step, preceded by calls issued earlier. -/
def Step.after {σ α : Type} (b : Step σ α) (earlier : List Event) : Step σ α :=
  { result := b.result, state := b.state, events := earlier ++ b.events }

/-! ## The retry driver -/

/-- How one invocation of the retried operation ends: it returns, it calls
`retry(ex)`, or it throws `ex` without calling `retry`. -/
inductive Attempt (α : Type) where
  | resolved (a : α)
  | retry (ex : Err)
  | thrown (ex : Err)
deriving DecidableEq

/-- One invocation of a retried operation: how it ended, the variables of the
enclosing function it shares with the other invocations, the provider state and
the remote calls of this invocation. -/
structure AttemptRun (κ σ α : Type) where
  outcome : Attempt α
  vars : κ
  state : σ
  events : List Event

/-- A whole retried operation; `attempts` lists the remote calls of each
invocation, first invocation first. -/
structure RetryRun (κ σ α : Type) where
  result : Except Err α
  vars : κ
  state : σ
  attempts : List (List Event)

/-- Modelled from the spec: the retry driver `./retry`, whose source is not part
of `lib/ram.js`.  The operation is invoked with the attempt counter; when it calls
`retry(ex)` another invocation follows as long as the bound on the number of
retries is not used up, and once it is used up `ex` propagates; when the operation
throws without calling `retry` the error propagates at once.  The first argument
is the number of retries still allowed; delays between invocations are not modelled. -/
def promiseRetryFrom {κ σ α : Type} (fn : Nat → κ → σ → AttemptRun κ σ α) :
    Nat → Nat → κ → σ → RetryRun κ σ α
  | 0, times, vars, s =>
    let a := fn times vars s
    { result := match a.outcome with
        | .resolved x => .ok x
        | .retry ex => .error ex
        | .thrown ex => .error ex,
      vars := a.vars, state := a.state, attempts := [a.events] }
  | n + 1, times, vars, s =>
    let a := fn times vars s
    match a.outcome with
    | .resolved x => { result := .ok x, vars := a.vars, state := a.state, attempts := [a.events] }
    | .thrown ex => { result := .error ex, vars := a.vars, state := a.state, attempts := [a.events] }
    | .retry _ =>
      let r := promiseRetryFrom fn n (times + 1) a.vars a.state
      { result := r.result, vars := r.vars, state := r.state, attempts := a.events :: r.attempts }

/-- Modelled from the spec: `promiseRetry(fn)` of `./retry` with at most `retries`
retries.  The attempt counter, which the operations only write to the console,
is taken to start at 1. -/
def promiseRetry {κ σ α : Type} (retries : Nat) (fn : Nat → κ → σ → AttemptRun κ σ α)
    (vars : κ) (s : σ) : RetryRun κ σ α :=
  promiseRetryFrom fn retries 1 vars s

/-- The `catch (ex)` block of `makePolicy` and `attachPolicyToRole`: rethrow a
`NoPermission` error, call `retry(ex)` for every other one. -/
def catchNoPermission {α : Type} (ex : Err) : Attempt α :=
  if ex.isNoPermission then .thrown ex else .retry ex

/-- The `catch (ex)` block of `makeRole`. -/
def catchMakeRole {α : Type} (ex : Err) : Attempt α :=
  if ex.isInvalidParameter then .thrown ex
  else if ex.isNoPermission then .thrown ex
  else .retry ex

/-! ## Policies -/

/-- The loop of `deletePolicyNotDefaultVersion` over the listed versions. -/
def deleteVersions {σ : Type} (ram : RamClient σ) (policyName : String) :
    List PolicyVersion → σ → Step σ Unit
  | [], s => { result := .ok (), state := s, events := [] }
  | version :: rest, s =>
    if version.IsDefaultVersion = some false then
      (request (.deletePolicyVersion policyName version.VersionId)
          (ram.deletePolicyVersion policyName version.VersionId) s).andThen
        (fun _ s1 => deleteVersions ram policyName rest s1)
    else deleteVersions ram policyName rest s

/-- The value of `(listResponse.PolicyVersions || {}).PolicyVersion`. -/
def listedVersions (listResponse : ListPolicyVersionsResponse) : Option (List PolicyVersion) :=
  match listResponse.PolicyVersions with
  | some vs => vs.PolicyVersion
  | none => none

/-- The function `deletePolicyNotDefaultVersion`. -/
def deletePolicyNotDefaultVersion {σ : Type} (ram : RamClient σ) (policyName : String) (s : σ) :
    Step σ Unit :=
  (request (.listPolicyVersions "Custom" policyName) (ram.listPolicyVersions "Custom" policyName) s).andThen
    (fun listResponse s1 =>
      match listedVersions listResponse with
      | some versions => deleteVersions ram policyName versions s1
      | none => { result := .ok (), state := s1, events := [] })

/-- The two branches of `makePolicy` after the existence check. -/
def makePolicyBranch {σ : Type} (ram : RamClient σ) (policyName : String) (policyDocument : Json)
    (exists_ : Bool) (s : σ) : Step σ Unit :=
  if !exists_ then
    request (.createPolicy policyName "generated by fc fun" policyDocument.stringify)
      (ram.createPolicy policyName "generated by fc fun" policyDocument.stringify) s
  else
    (deletePolicyNotDefaultVersion ram policyName s).andThen
      (fun _ s1 => request (.createPolicyVersion policyName policyDocument.stringify true)
        (ram.createPolicyVersion policyName policyDocument.stringify true) s1)

/-- The outer `try` block of the operation `makePolicy` retries, with the value
of `exists` it leaves. -/
def makePolicyTry {σ : Type} (ram : RamClient σ) (policyName : String) (policyDocument : Json)
    (exists_ : Bool) (s : σ) : Step σ Unit × Bool :=
  let g := request (.getPolicy "Custom" policyName) (ram.getPolicy "Custom" policyName) s
  match g.result with
  | .ok _ =>
    ((makePolicyBranch ram policyName policyDocument exists_ g.state).after g.events, exists_)
  | .error ex =>
    if ex.code ≠ some "EntityNotExist.Policy" then
      ({ result := .error ex, state := g.state, events := g.events }, exists_)
    else
      ((makePolicyBranch ram policyName policyDocument false g.state).after g.events, false)

/-- The operation `makePolicy` hands to `promiseRetry`; `exists_` is the variable
`exists` of the enclosing call. -/
def makePolicyAttempt {σ : Type} (ram : RamClient σ) (policyName : String) (policyDocument : Json)
    (_times : Nat) (exists_ : Bool) (s : σ) : AttemptRun Bool σ Unit :=
  let t := makePolicyTry ram policyName policyDocument exists_ s
  { outcome := match t.1.result with
      | .ok _ => .resolved ()
      | .error ex => catchNoPermission ex,
    vars := t.2, state := t.1.state, events := t.1.events }

/-- The function `makePolicy`; `retries` is the bound of the retry driver. -/
def makePolicy {σ : Type} (retries : Nat) (ram : RamClient σ) (policyName : String)
    (policyDocument : Json) (s : σ) : RetryRun Bool σ Unit :=
  promiseRetry retries (makePolicyAttempt ram policyName policyDocument) true s

/-! ## Attachments -/

/-- The operation `attachPolicyToRole` hands to `promiseRetry`; `toLower` is
lodash's `_.toLower`. -/
def attachPolicyToRoleAttempt {σ : Type} (toLower : String → String) (ram : RamClient σ)
    (policyName roleName policyType : String) (_times : Nat) (_vars : Unit) (s : σ) :
    AttemptRun Unit σ Unit :=
  let t := (request (.listPoliciesForRole roleName) (ram.listPoliciesForRole roleName) s).andThen
    (fun policies s1 =>
      match policies.Policies.Policy.find? (fun item => toLower item.PolicyName == toLower policyName) with
      | some _ => { result := .ok (), state := s1, events := [] }
      | none =>
        request (.attachPolicyToRole policyType policyName roleName)
          (ram.attachPolicyToRole policyType policyName roleName) s1)
  { outcome := match t.result with
      | .ok _ => .resolved ()
      | .error ex => catchNoPermission ex,
    vars := (), state := t.state, events := t.events }

/-- The function `attachPolicyToRole`; an omitted `policyType` is `'System'`. -/
def attachPolicyToRole {σ : Type} (toLower : String → String) (retries : Nat) (ram : RamClient σ)
    (policyName roleName : String) (policyType : Option String) (s : σ) : RetryRun Unit σ Unit :=
  promiseRetry retries
    (attachPolicyToRoleAttempt toLower ram policyName roleName (policyType.getD "System")) () s

/-! ## Roles -/

/-- The function `getRamRole`: `none` stands for the `undefined` it returns when
the role is not found. -/
def getRamRole {σ : Type} (ramClient : RamClient σ) (roleName : String) (s : σ) :
    Step σ (Option RoleResponse) :=
  let g := request (.getRole roleName) (ramClient.getRole roleName) s
  match g.result with
  | .ok role => { result := .ok (some role), state := g.state, events := g.events }
  | .error ex =>
    if ex.name ≠ "EntityNotExist.RoleError" then
      { result := .error ex, state := g.state, events := g.events }
    else { result := .ok none, state := g.state, events := g.events }

/-- The variables of `makeRole` that its retried operation assigns. -/
structure MakeRoleVars where
  role : Option RoleResponse
  assumeRolePolicy : Option Json

/-- The value of `assumeRolePolicy` after `if (!assumeRolePolicy) { ... }`. -/
def defaultedAssumeRolePolicy (assumeRolePolicy : Option Json) : Json :=
  match assumeRolePolicy with
  | some doc => if doc.truthy then doc else fcAssumeRolePolicy
  | none => fcAssumeRolePolicy

/-- The operation `makeRole` hands to `promiseRetry`; an omitted `description`
is `'FunctionCompute Default Role'`. -/
def makeRoleAttempt {σ : Type} (ram : RamClient σ) (roleName : String) (createRoleIfNotExist : Bool)
    (description : String) (_times : Nat) (vars : MakeRoleVars) (s : σ) :
    AttemptRun MakeRoleVars σ Unit :=
  let g := getRamRole ram roleName s
  match g.result with
  | .error ex => { outcome := catchMakeRole ex, vars := vars, state := g.state, events := g.events }
  | .ok role =>
    let assumeRolePolicy := defaultedAssumeRolePolicy vars.assumeRolePolicy
    if role.isNone && createRoleIfNotExist then
      let c := request (.createRole roleName description assumeRolePolicy.stringify)
        (ram.createRole roleName description assumeRolePolicy.stringify) g.state
      match c.result with
      | .ok created =>
        { outcome := .resolved (), vars := { role := some created, assumeRolePolicy := some assumeRolePolicy },
          state := c.state, events := g.events ++ c.events }
      | .error ex =>
        { outcome := catchMakeRole ex, vars := { role := role, assumeRolePolicy := some assumeRolePolicy },
          state := c.state, events := g.events ++ c.events }
    else if role.isNone then
      { outcome := catchMakeRole (Err.plain ("role " ++ roleName ++ " not exist")),
        vars := { role := role, assumeRolePolicy := some assumeRolePolicy },
        state := g.state, events := g.events }
    else
      { outcome := .resolved (), vars := { role := role, assumeRolePolicy := some assumeRolePolicy },
        state := g.state, events := g.events }

/-- The statement `await promiseRetry(...)` of `makeRole`. -/
def makeRoleRetry {σ : Type} (retries : Nat) (ram : RamClient σ) (roleName : String)
    (createRoleIfNotExist : Bool) (description : Option String) (assumeRolePolicy : Option Json)
    (s : σ) : RetryRun MakeRoleVars σ Unit :=
  promiseRetry retries
    (makeRoleAttempt ram roleName createRoleIfNotExist (description.getD "FunctionCompute Default Role"))
    { role := none, assumeRolePolicy := assumeRolePolicy } s

/-- The function `makeRole`: the value it returns is the variable `role`. -/
def makeRole {σ : Type} (retries : Nat) (ram : RamClient σ) (roleName : String)
    (createRoleIfNotExist : Bool) (description : Option String) (assumeRolePolicy : Option Json)
    (s : σ) : Step σ (Option RoleResponse) :=
  let r := makeRoleRetry retries ram roleName createRoleIfNotExist description assumeRolePolicy s
  { result := match r.result with
      | .ok _ => .ok r.vars.role
      | .error ex => .error ex,
    state := r.state, events := r.attempts.flatten }

/-! ## Compound operation -/

/-- The function `makeAndAttachPolicy`. -/
def makeAndAttachPolicy {σ : Type} (toLower : String → String) (retries : Nat) (ram : RamClient σ)
    (policyName : String) (policyDocument : Json) (roleName : String) (s : σ) : Step σ Unit :=
  let p := makePolicy retries ram policyName policyDocument s
  match p.result with
  | .error ex => { result := .error ex, state := p.state, events := p.attempts.flatten }
  | .ok _ =>
    let a := attachPolicyToRole toLower retries ram policyName roleName (some "Custom") p.state
    { result := a.result, state := a.state, events := p.attempts.flatten ++ a.attempts.flatten }

/-! ## A reference provider

The provider is remote; the statements about provider states (stored versions,
attachment records) are made against the following model of it, which follows
the data model of the specification: a policy holds a bounded list of versions,
one of them the default; the default version cannot be deleted; an attachment
links a policy to a role. -/

/-- A stored policy version. -/
structure StoredVersion where
  VersionId : String
  IsDefaultVersion : Bool
  PolicyDocument : String
deriving DecidableEq, Repr

/-- A stored policy: its versions, oldest first, and the number of versions
created for it so far. -/
structure StoredPolicy where
  Description : String
  versions : List StoredVersion
  created : Nat
deriving DecidableEq, Repr

/-- The provider state: policies by type and name, roles by name, and the
policies attached to each role. -/
structure Provider where
  policies : String → String → Option StoredPolicy
  roles : String → Option RoleResponse
  attached : String → List AttachedPolicy

/-- What is fixed about the provider: the cap on stored versions of a policy,
the identifier of the n-th version created for a policy, and the normal form
under which policy names are compared. -/
structure ProviderRules where
  versionLimit : Nat
  versionId : Nat → String
  toLower : String → String

/-- An error as the provider raises it: the name is the code followed by `Error`. -/
def providerError (code : String) : Err :=
  { code := some code, name := code ++ "Error", message := code }

/-- The provider state with one policy stored or replaced. -/
def Provider.setPolicy (p : Provider) (policyType key : String) (pol : StoredPolicy) : Provider :=
  { p with policies := fun t n => if t = policyType ∧ n = key then some pol else p.policies t n }

/-- A stored version as `listPolicyVersions` reports it. -/
def StoredVersion.listed (v : StoredVersion) : PolicyVersion :=
  { VersionId := v.VersionId, IsDefaultVersion := some v.IsDefaultVersion }

/-- A stored version that is no longer the default. -/
def StoredVersion.demote (v : StoredVersion) : StoredVersion :=
  { v with IsDefaultVersion := false }

/-- The records of `role` that stand for the policy `policyName`. -/
def Provider.attachments (rules : ProviderRules) (p : Provider) (policyName roleName : String) :
    List AttachedPolicy :=
  (p.attached roleName).filter (fun a => rules.toLower a.PolicyName == rules.toLower policyName)

/-- The reference provider as a client. -/
def Provider.client (rules : ProviderRules) : RamClient Provider where
  getPolicy := fun policyType policyName p =>
    match p.policies policyType (rules.toLower policyName) with
    | some _ => (.ok (), p)
    | none => (.error (providerError "EntityNotExist.Policy"), p)
  createPolicy := fun policyName description policyDocument p =>
    match p.policies "Custom" (rules.toLower policyName) with
    | some _ => (.error (providerError "EntityAlreadyExists.Policy"), p)
    | none =>
      (.ok (), p.setPolicy "Custom" (rules.toLower policyName)
        { Description := description,
          versions := [{ VersionId := rules.versionId 0, IsDefaultVersion := true,
                         PolicyDocument := policyDocument }],
          created := 1 })
  listPolicyVersions := fun policyType policyName p =>
    match p.policies policyType (rules.toLower policyName) with
    | some pol =>
      (.ok { PolicyVersions := some { PolicyVersion := some (pol.versions.map StoredVersion.listed) } }, p)
    | none => (.error (providerError "EntityNotExist.Policy"), p)
  deletePolicyVersion := fun policyName versionId p =>
    match p.policies "Custom" (rules.toLower policyName) with
    | none => (.error (providerError "EntityNotExist.Policy"), p)
    | some pol =>
      match pol.versions.find? (fun v => v.VersionId == versionId) with
      | none => (.error (providerError "EntityNotExist.Policy.Version"), p)
      | some v =>
        if v.IsDefaultVersion then
          (.error (providerError "DeleteConflict.Policy.Version.Default"), p)
        else
          (.ok (), p.setPolicy "Custom" (rules.toLower policyName)
            { pol with versions := pol.versions.filter (fun w => w.VersionId != versionId) })
  createPolicyVersion := fun policyName policyDocument setAsDefault p =>
    match p.policies "Custom" (rules.toLower policyName) with
    | none => (.error (providerError "EntityNotExist.Policy"), p)
    | some pol =>
      if rules.versionLimit ≤ pol.versions.length then
        (.error (providerError "LimitExceeded.Policy.Version"), p)
      else
        (.ok (), p.setPolicy "Custom" (rules.toLower policyName)
          { pol with
            versions := (if setAsDefault then pol.versions.map StoredVersion.demote else pol.versions) ++
              [{ VersionId := rules.versionId pol.created, IsDefaultVersion := setAsDefault,
                 PolicyDocument := policyDocument }],
            created := pol.created + 1 })
  listPoliciesForRole := fun roleName p =>
    match p.roles roleName with
    | none => (.error (providerError "EntityNotExist.Role"), p)
    | some _ => (.ok { Policies := { Policy := p.attached roleName } }, p)
  attachPolicyToRole := fun policyType policyName roleName p =>
    match p.roles roleName, p.policies policyType (rules.toLower policyName) with
    | none, _ => (.error (providerError "EntityNotExist.Role"), p)
    | some _, none => (.error (providerError "EntityNotExist.Policy"), p)
    | some _, some _ =>
      if (p.attachments rules policyName roleName).isEmpty then
        (.ok (), { p with attached := (fun r =>
          if r = roleName then
            p.attached roleName ++ [({ PolicyName := policyName, PolicyType := policyType } : AttachedPolicy)]
          else p.attached r) })
      else (.error (providerError "EntityAlreadyExists.Role.Policy"), p)
  getRole := fun roleName p =>
    match p.roles roleName with
    | some role => (.ok role, p)
    | none => (.error (providerError "EntityNotExist.Role"), p)
  createRole := fun roleName description assumeRolePolicyDocument p =>
    match p.roles roleName with
    | some _ => (.error (providerError "EntityAlreadyExists.Role"), p)
    | none =>
      (.ok { RoleName := roleName, Description := description,
             AssumeRolePolicyDocument := assumeRolePolicyDocument },
        { p with roles := (fun r =>
            if r = roleName then
              some { RoleName := roleName, Description := description,
                     AssumeRolePolicyDocument := assumeRolePolicyDocument }
            else p.roles r) })

/-- The invariant the provider keeps for a stored policy: version identifiers
are distinct, the identifier handed out next is not in use, exactly one version
is the default, and the cap on the number of versions is respected. -/
def WellFormedPolicy (rules : ProviderRules) (pol : StoredPolicy) : Prop :=
  (pol.versions.map StoredVersion.VersionId).Nodup ∧
  rules.versionId pol.created ∉ pol.versions.map StoredVersion.VersionId ∧
  (pol.versions.filter StoredVersion.IsDefaultVersion).length = 1 ∧
  pol.versions.length ≤ rules.versionLimit

/-- The event of a `deletePolicyVersion` call for a stored version that went through. -/
def deleted (policyName : String) (v : StoredVersion) : Event :=
  { call := .deletePolicyVersion policyName v.VersionId, error := none }

/-- The version `createPolicyVersion` with `SetAsDefault = true` adds to a policy. -/
def newDefaultVersion (rules : ProviderRules) (pol : StoredPolicy) (policyDocument : String) :
    StoredVersion :=
  { VersionId := rules.versionId pol.created, IsDefaultVersion := true,
    PolicyDocument := policyDocument }

/-! ## Scripted failures

A client can be made to fail on chosen calls: the script lists, call after
call, the error to raise (`some ex`) or that the call goes through (`none`). -/

/-- One operation under a script of failures. -/
def scripted {σ α : Type} (op : σ → Except Err α × σ) :
    List (Option Err) × σ → Except Err α × (List (Option Err) × σ)
  | (some ex :: rest, s) => (.error ex, (rest, s))
  | (none :: rest, s) => ((op s).1, (rest, (op s).2))
  | ([], s) => ((op s).1, ([], (op s).2))

/-- A client under a script of failures. -/
def RamClient.withScript {σ : Type} (ram : RamClient σ) : RamClient (List (Option Err) × σ) where
  getPolicy := fun t n => scripted (ram.getPolicy t n)
  createPolicy := fun n d doc => scripted (ram.createPolicy n d doc)
  listPolicyVersions := fun t n => scripted (ram.listPolicyVersions t n)
  deletePolicyVersion := fun n v => scripted (ram.deletePolicyVersion n v)
  createPolicyVersion := fun n doc b => scripted (ram.createPolicyVersion n doc b)
  listPoliciesForRole := fun r => scripted (ram.listPoliciesForRole r)
  attachPolicyToRole := fun t n r => scripted (ram.attachPolicyToRole t n r)
  getRole := fun r => scripted (ram.getRole r)
  createRole := fun r d doc => scripted (ram.createRole r d doc)

/-- Sample provider rules: at most five versions per policy, identifiers
`v`, `vv`, `vvv`, ... and lower-casing of the letters `A` to `Z` in names.  On
names made of ASCII characters, the only ones the samples use, this is what
lodash's `_.toLower` gives; on other letters `_.toLower` changes more. -/
def sampleRules : ProviderRules where
  versionLimit := 5
  versionId := fun n => String.mk (List.replicate (n + 1) (Char.ofNat 118))
  toLower := fun name => String.mk (name.toList.map Char.toLower)

/-- A provider with nothing stored. -/
def emptyProvider : Provider where
  policies := fun _ _ => none
  roles := fun _ => none
  attached := fun _ => []

/-- A stored policy with three versions, the second of which is the default. -/
def samplePolicy : StoredPolicy where
  Description := "generated by fc fun"
  versions := [{ VersionId := "v", IsDefaultVersion := false, PolicyDocument := "1" },
               { VersionId := "vv", IsDefaultVersion := true, PolicyDocument := "2" },
               { VersionId := "vvv", IsDefaultVersion := false, PolicyDocument := "3" }]
  created := 3

/-- The role the sample provider holds. -/
def sampleRole : RoleResponse where
  RoleName := "roleA"
  Description := "FunctionCompute Default Role"
  AssumeRolePolicyDocument := fcAssumeRolePolicy.stringify

/-- A provider holding the role `roleA` and the custom policy `p1`. -/
def sampleProvider : Provider where
  policies := fun t n => if t = "Custom" ∧ n = "p1" then some samplePolicy else none
  roles := fun r => if r = "roleA" then some sampleRole else none
  attached := fun _ => []

/-- A sample policy document. -/
def sampleDocument : Json :=
  .obj [("Version", .str "1"), ("Statement", .arr [.obj [("Effect", .str "Allow"),
    ("Action", .arr [.str "oss:GetObject"]), ("Resource", .str "*")]])]

/-- The provider's answer for a missing policy. -/
def policyNotExist : Err := providerError "EntityNotExist.Policy"

/-- The provider's answer for a missing role. -/
def roleNotExist : Err := providerError "EntityNotExist.Role"

/-- A permission failure. -/
def noPermission : Err := providerError "NoPermission"

/-- A failure that may go away. -/
def serviceUnavailable : Err := providerError "ServiceUnavailable"

/-- A rejected policy name. -/
def invalidPolicyName : Err := providerError "InvalidParameter.PolicyName.Format"

/-- A rejected role name. -/
def invalidRoleName : Err := providerError "InvalidParameter.RoleName.InvalidChars"

/-! ## Auxiliary notions for the statements -/

/-- Among `events`, a call that failed with a `fatal` error can only be the last
one, and then `failure` is that error. -/
def FatalLast (fatal : Err → Prop) (failure : Option Err) (events : List Event) : Prop :=
  ∀ (j : Nat) (ev : Event) (ex : Err), events[j]? = some ev → ev.error = some ex → fatal ex →
    failure = some ex ∧ j + 1 = events.length

/-- The error an invocation threw without calling `retry`, if it did. -/
def Attempt.thrownError {α : Type} : Attempt α → Option Err
  | .thrown ex => some ex
  | _ => none

/-- The remote operations that work on the stored versions of a policy. -/
def Call.isVersionCall : Call → Bool
  | .listPolicyVersions _ _ => true
  | .deletePolicyVersion _ _ => true
  | .createPolicyVersion _ _ _ => true
  | _ => false

/-- The calls of an invocation of the operation of `makePolicy` that takes the
create branch whenever it gets past `getPolicy`: the first call is `getPolicy`;
when that call returned or raised `EntityNotExist.Policy`, the only other call is
`createPolicy` with the given name and document; when it failed with any other
code, it is the only call of the invocation; and no call works on the stored
versions. -/
def CreateBranchOnly (policyName : String) (policyDocument : Json) (evs : List Event) : Prop :=
  ∃ g, evs[0]? = some { call := .getPolicy "Custom" policyName, error := g } ∧
    ((∀ ex, g = some ex → ex.code = some "EntityNotExist.Policy") →
      ∃ c, evs = [{ call := .getPolicy "Custom" policyName, error := g },
        { call := .createPolicy policyName "generated by fc fun" policyDocument.stringify,
          error := c }]) ∧
    (∀ ex, g = some ex → ex.code ≠ some "EntityNotExist.Policy" →
      evs = [{ call := .getPolicy "Custom" policyName, error := some ex }]) ∧
    ∀ ev ∈ evs, ev.call.isVersionCall = false

/-! ## Basic facts about the retry driver -/

theorem promiseRetryFrom_resolved {κ σ α : Type} (fn : Nat → κ → σ → AttemptRun κ σ α)
    (n times : Nat) (vars : κ) (s : σ) (x : α) (h : (fn times vars s).outcome = .resolved x) :
    promiseRetryFrom fn n times vars s =
      { result := .ok x, vars := (fn times vars s).vars, state := (fn times vars s).state,
        attempts := [(fn times vars s).events] } := by
  cases n <;> simp [promiseRetryFrom, h]

theorem promiseRetryFrom_thrown {κ σ α : Type} (fn : Nat → κ → σ → AttemptRun κ σ α)
    (n times : Nat) (vars : κ) (s : σ) (ex : Err) (h : (fn times vars s).outcome = .thrown ex) :
    promiseRetryFrom fn n times vars s =
      { result := .error ex, vars := (fn times vars s).vars, state := (fn times vars s).state,
        attempts := [(fn times vars s).events] } := by
  cases n <;> simp [promiseRetryFrom, h]

theorem promiseRetryFrom_retry_zero {κ σ α : Type} (fn : Nat → κ → σ → AttemptRun κ σ α)
    (times : Nat) (vars : κ) (s : σ) (ex : Err) (h : (fn times vars s).outcome = .retry ex) :
    promiseRetryFrom fn 0 times vars s =
      { result := .error ex, vars := (fn times vars s).vars, state := (fn times vars s).state,
        attempts := [(fn times vars s).events] } := by
  simp [promiseRetryFrom, h]

theorem promiseRetryFrom_retry_succ {κ σ α : Type} (fn : Nat → κ → σ → AttemptRun κ σ α)
    (n times : Nat) (vars : κ) (s : σ) (ex : Err) (h : (fn times vars s).outcome = .retry ex) :
    promiseRetryFrom fn (n + 1) times vars s =
      { result := (promiseRetryFrom fn n (times + 1) (fn times vars s).vars (fn times vars s).state).result,
        vars := (promiseRetryFrom fn n (times + 1) (fn times vars s).vars (fn times vars s).state).vars,
        state := (promiseRetryFrom fn n (times + 1) (fn times vars s).vars (fn times vars s).state).state,
        attempts := (fn times vars s).events ::
          (promiseRetryFrom fn n (times + 1) (fn times vars s).vars (fn times vars s).state).attempts } := by
  simp [promiseRetryFrom, h]

/-- The first invocation is the operation run on the initial variables and state. -/
theorem promiseRetryFrom_head {κ σ α : Type} (fn : Nat → κ → σ → AttemptRun κ σ α)
    (n times : Nat) (vars : κ) (s : σ) :
    (promiseRetryFrom fn n times vars s).attempts.head? = some (fn times vars s).events := by
  cases n with
  | zero => rfl
  | succ n =>
    simp only [promiseRetryFrom]
    split <;> rfl

/-- When, under an invariant of the shared variables and the provider state,
every invocation ends in `retry(ex)` with the same error, the driver uses up its
retries and fails with that error. -/
theorem promiseRetryFrom_always_retry {κ σ α : Type} (fn : Nat → κ → σ → AttemptRun κ σ α)
    (I : κ → σ → Prop) (ex : Err)
    (h : ∀ times vars s, I vars s →
      (fn times vars s).outcome = .retry ex ∧ I (fn times vars s).vars (fn times vars s).state)
    (n times : Nat) (vars : κ) (s : σ) (hI : I vars s) :
    (promiseRetryFrom fn n times vars s).result = .error ex ∧
    (promiseRetryFrom fn n times vars s).attempts.length = n + 1 := by
  induction n generalizing times vars s with
  | zero => simp [promiseRetryFrom_retry_zero fn times vars s ex (h _ _ _ hI).1]
  | succ n ih =>
    rw [promiseRetryFrom_retry_succ fn n times vars s ex (h _ _ _ hI).1]
    simp [ih _ _ _ (h _ _ _ hI).2]

/-- A property that the remote calls of every invocation have, under an
invariant of the shared variables and the provider state, holds for each
invocation of the whole retried operation. -/
theorem promiseRetryFrom_forall_attempts {κ σ α : Type} (fn : Nat → κ → σ → AttemptRun κ σ α)
    (I : κ → σ → Prop) (Q : List Event → Prop)
    (h : ∀ times vars s, I vars s →
      Q (fn times vars s).events ∧ I (fn times vars s).vars (fn times vars s).state)
    (n times : Nat) (vars : κ) (s : σ) (hI : I vars s) :
    ∀ evs ∈ (promiseRetryFrom fn n times vars s).attempts, Q evs := by
  induction n generalizing times vars s with
  | zero =>
    intro evs hevs
    simp only [promiseRetryFrom, List.mem_singleton] at hevs
    subst hevs
    exact (h _ _ _ hI).1
  | succ n ih =>
    intro evs hevs
    cases ho : (fn times vars s).outcome with
    | resolved x =>
      rw [promiseRetryFrom_resolved fn _ times vars s x ho] at hevs
      simp only [List.mem_singleton] at hevs
      subst hevs
      exact (h _ _ _ hI).1
    | thrown ex =>
      rw [promiseRetryFrom_thrown fn _ times vars s ex ho] at hevs
      simp only [List.mem_singleton] at hevs
      subst hevs
      exact (h _ _ _ hI).1
    | retry ex =>
      rw [promiseRetryFrom_retry_succ fn n times vars s ex ho] at hevs
      simp only [List.mem_cons] at hevs
      rcases hevs with hevs | hevs
      · subst hevs
        exact (h _ _ _ hI).1
      · exact ih _ _ _ (h _ _ _ hI).2 evs hevs

/-- A property of the remote calls of every invocation holds for every call of
the whole retried operation. -/
theorem promiseRetryFrom_forall_events {κ σ α : Type} (fn : Nat → κ → σ → AttemptRun κ σ α)
    (P : Event → Prop) (h : ∀ times vars s, ∀ ev ∈ (fn times vars s).events, P ev)
    (n times : Nat) (vars : κ) (s : σ) :
    ∀ evs ∈ (promiseRetryFrom fn n times vars s).attempts, ∀ ev ∈ evs, P ev :=
  promiseRetryFrom_forall_attempts fn (fun _ _ => True) (fun evs => ∀ ev ∈ evs, P ev)
    (fun times vars s _ => ⟨h times vars s, trivial⟩) n times vars s trivial

/-! ## Fatal errors end the operation -/

theorem fatalLast_nil (fatal : Err → Prop) (failure : Option Err) : FatalLast fatal failure [] := by
  intro j ev ex h
  simp at h

theorem fatalLast_request {σ α : Type} (fatal : Err → Prop) (c : Call) (op : σ → Except Err α × σ)
    (s : σ) : FatalLast fatal (errorOf (request c op s).result) (request c op s).events := by
  intro j ev ex h herr _
  cases j with
  | zero =>
    simp only [request, List.getElem?_cons_zero, Option.some.injEq] at h
    subst h
    simp only at herr
    simp [request, herr]
  | succ j => simp [request] at h

/-- Calls that all went through, followed by a step with the property. -/
theorem fatalLast_append (fatal : Err → Prop) (failure : Option Err) (earlier events : List Event)
    (h1 : ∀ ev ∈ earlier, ∀ ex, ev.error = some ex → ¬ fatal ex)
    (h2 : FatalLast fatal failure events) : FatalLast fatal failure (earlier ++ events) := by
  intro j ev ex h herr hf
  by_cases hj : j < earlier.length
  · rw [List.getElem?_append_left hj] at h
    exact absurd hf (h1 ev (List.getElem?_mem h) ex herr)
  · rw [List.getElem?_append_right (Nat.le_of_not_lt hj)] at h
    obtain ⟨h3, h4⟩ := h2 _ ev ex h herr hf
    refine ⟨h3, ?_⟩
    rw [List.length_append]
    omega

theorem fatalLast_andThen {σ α β : Type} (fatal : Err → Prop) (a : Step σ α)
    (f : α → σ → Step σ β) (ha : FatalLast fatal (errorOf a.result) a.events)
    (hf : ∀ x s, FatalLast fatal (errorOf (f x s).result) (f x s).events) :
    FatalLast fatal (errorOf (a.andThen f).result) (a.andThen f).events := by
  unfold Step.andThen
  cases hr : a.result with
  | error ex =>
    simp only
    rw [hr] at ha
    exact ha
  | ok x =>
    simp only
    apply fatalLast_append
    · intro ev hev ex herr hfat
      obtain ⟨j, hj⟩ := List.getElem?_of_mem hev
      have := (ha j ev ex hj herr hfat).1
      rw [hr] at this
      simp [errorOf] at this
    · exact hf x a.state

theorem fatalLast_deleteVersions {σ : Type} (fatal : Err → Prop) (ram : RamClient σ)
    (policyName : String) (versions : List PolicyVersion) (s : σ) :
    FatalLast fatal (errorOf (deleteVersions ram policyName versions s).result)
      (deleteVersions ram policyName versions s).events := by
  induction versions generalizing s with
  | nil => exact fatalLast_nil _ _
  | cons version rest ih =>
    unfold deleteVersions
    split
    · exact fatalLast_andThen fatal _ _ (fatalLast_request fatal _ _ _) (fun _ s1 => ih s1)
    · exact ih s

theorem fatalLast_deletePolicyNotDefaultVersion {σ : Type} (fatal : Err → Prop) (ram : RamClient σ)
    (policyName : String) (s : σ) :
    FatalLast fatal (errorOf (deletePolicyNotDefaultVersion ram policyName s).result)
      (deletePolicyNotDefaultVersion ram policyName s).events := by
  unfold deletePolicyNotDefaultVersion
  apply fatalLast_andThen fatal _ _ (fatalLast_request fatal _ _ _)
  intro listResponse s1
  split
  · exact fatalLast_deleteVersions fatal ram policyName _ s1
  · exact fatalLast_nil _ _

theorem fatalLast_makePolicyBranch {σ : Type} (fatal : Err → Prop) (ram : RamClient σ)
    (policyName : String) (policyDocument : Json) (exists_ : Bool) (s : σ) :
    FatalLast fatal (errorOf (makePolicyBranch ram policyName policyDocument exists_ s).result)
      (makePolicyBranch ram policyName policyDocument exists_ s).events := by
  unfold makePolicyBranch
  split
  · exact fatalLast_request fatal _ _ _
  · exact fatalLast_andThen fatal _ _ (fatalLast_deletePolicyNotDefaultVersion fatal ram policyName s)
      (fun _ s1 => fatalLast_request fatal _ _ _)

/-- In the `try` block of `makePolicy`, a call that fails with a code other than
`EntityNotExist.Policy` is the last call, and the block throws its error. -/
theorem fatalLast_makePolicyTry {σ : Type} (fatal : Err → Prop)
    (hfatal : ∀ ex, fatal ex → ex.code ≠ some "EntityNotExist.Policy") (ram : RamClient σ)
    (policyName : String) (policyDocument : Json) (exists_ : Bool) (s : σ) :
    FatalLast fatal (errorOf (makePolicyTry ram policyName policyDocument exists_ s).1.result)
      (makePolicyTry ram policyName policyDocument exists_ s).1.events := by
  unfold makePolicyTry
  simp only
  split
  · rename_i u hg
    apply fatalLast_append
    · intro ev hev ex herr _
      simp only [request, List.mem_singleton] at hev
      subst hev
      simp only [request] at hg
      simp [hg, errorOf] at herr
    · exact fatalLast_makePolicyBranch fatal ram policyName policyDocument exists_ _
  · rename_i ex hg
    split
    · have := fatalLast_request fatal (.getPolicy "Custom" policyName)
        (ram.getPolicy "Custom" policyName) s
      rw [hg] at this
      exact this
    · rename_i hcode
      apply fatalLast_append
      · intro ev hev ex1 herr hf
        simp only [request, List.mem_singleton] at hev
        subst hev
        simp only [request] at hg
        simp only [hg, errorOf, Option.some.injEq] at herr
        subst herr
        exact absurd (not_not.mp hcode) (hfatal _ hf)
      · exact fatalLast_makePolicyBranch fatal ram policyName policyDocument false _

/-- An invocation of the operation of `makePolicy` in which a call fails with
code `NoPermission` throws that error without calling `retry`, and the failed
call is its last call. -/
theorem makePolicyAttempt_noPermission {σ : Type} (ram : RamClient σ) (policyName : String)
    (policyDocument : Json) (times : Nat) (exists_ : Bool) (s : σ) :
    FatalLast (fun ex => ex.code = some "NoPermission")
      (makePolicyAttempt ram policyName policyDocument times exists_ s).outcome.thrownError
      (makePolicyAttempt ram policyName policyDocument times exists_ s).events := by
  intro j ev ex hj herr hcode
  have h := fatalLast_makePolicyTry (fun ex => ex.code = some "NoPermission")
    (by intro ex h; simp [h]) ram policyName policyDocument exists_ s j ev ex hj herr hcode
  refine ⟨?_, h.2⟩
  simp only [makePolicyAttempt]
  cases hr : (makePolicyTry ram policyName policyDocument exists_ s).1.result with
  | ok u => simp [hr, errorOf] at h
  | error ex1 =>
    simp only [hr, errorOf, Option.some.injEq] at h
    simp [h.1, catchNoPermission, Err.isNoPermission, hcode, Attempt.thrownError]

/-- When in every invocation a call failing with a fatal error is the last call
and makes the invocation throw, such a call is the last call of the last
invocation of the retried operation, which fails with that error. -/
theorem promiseRetryFrom_fatalLast {κ σ α : Type} (fn : Nat → κ → σ → AttemptRun κ σ α)
    (fatal : Err → Prop)
    (h : ∀ times vars s, FatalLast fatal (fn times vars s).outcome.thrownError (fn times vars s).events)
    (n times : Nat) (vars : κ) (s : σ) (i j : Nat) (evs : List Event) (ev : Event) (ex : Err)
    (hi : (promiseRetryFrom fn n times vars s).attempts[i]? = some evs) (hj : evs[j]? = some ev)
    (herr : ev.error = some ex) (hfatal : fatal ex) :
    (promiseRetryFrom fn n times vars s).result = .error ex ∧
    i + 1 = (promiseRetryFrom fn n times vars s).attempts.length ∧ j + 1 = evs.length := by
  induction n generalizing times vars s i with
  | zero =>
    simp only [promiseRetryFrom] at hi ⊢
    cases i with
    | zero =>
      simp only [List.getElem?_cons_zero, Option.some.injEq] at hi
      subst hi
      obtain ⟨h1, h2⟩ := h times vars s j ev ex hj herr hfatal
      cases ho : (fn times vars s).outcome with
      | resolved x => simp [ho, Attempt.thrownError] at h1
      | retry e => simp [ho, Attempt.thrownError] at h1
      | thrown e =>
        simp only [ho, Attempt.thrownError, Option.some.injEq] at h1
        simp [h1, h2]
    | succ i => simp at hi
  | succ n ih =>
    cases ho : (fn times vars s).outcome with
    | resolved x =>
      rw [promiseRetryFrom_resolved fn _ times vars s x ho] at hi ⊢
      cases i with
      | zero =>
        simp only [List.getElem?_cons_zero, Option.some.injEq] at hi
        subst hi
        have := (h times vars s j ev ex hj herr hfatal).1
        simp [ho, Attempt.thrownError] at this
      | succ i => simp at hi
    | thrown e =>
      rw [promiseRetryFrom_thrown fn _ times vars s e ho] at hi ⊢
      cases i with
      | zero =>
        simp only [List.getElem?_cons_zero, Option.some.injEq] at hi
        subst hi
        obtain ⟨h1, h2⟩ := h times vars s j ev ex hj herr hfatal
        simp only [ho, Attempt.thrownError, Option.some.injEq] at h1
        simp [h1, h2]
      | succ i => simp at hi
    | retry e =>
      rw [promiseRetryFrom_retry_succ fn n times vars s e ho] at hi ⊢
      cases i with
      | zero =>
        simp only [List.getElem?_cons_zero, Option.some.injEq] at hi
        subst hi
        have := (h times vars s j ev ex hj herr hfatal).1
        simp [ho, Attempt.thrownError] at this
      | succ i =>
        simp only [List.getElem?_cons_succ] at hi
        obtain ⟨h1, h2, h3⟩ := ih _ _ _ i hi
        exact ⟨h1, by simp [h2], h3⟩

/-- C5: in a `makePolicy` call, a remote call (`getPolicy` or any other call of
the retried operation) that fails with an error of code `NoPermission` is the
last call of the last invocation, and `makePolicy` fails with that same error:
the invocation rethrows it without calling `retry`, and no further invocation
or remote call follows. -/
theorem makePolicy_noPermission_not_retried {σ : Type} (retries : Nat) (ram : RamClient σ)
    (policyName : String) (policyDocument : Json) (s : σ) (i j : Nat) (evs : List Event)
    (ev : Event) (ex : Err)
    (hi : (makePolicy retries ram policyName policyDocument s).attempts[i]? = some evs)
    (hj : evs[j]? = some ev) (herr : ev.error = some ex) (hcode : ex.code = some "NoPermission") :
    (makePolicy retries ram policyName policyDocument s).result = .error ex ∧
    i + 1 = (makePolicy retries ram policyName policyDocument s).attempts.length ∧
    j + 1 = evs.length :=
  promiseRetryFrom_fatalLast (makePolicyAttempt ram policyName policyDocument)
    (fun ex => ex.code = some "NoPermission")
    (fun times vars s => makePolicyAttempt_noPermission ram policyName policyDocument times vars s)
    retries 1 true s i j evs ev ex hi hj herr hcode

/-- Witness for C5: `listPolicyVersions` is refused in the second invocation,
after a first invocation that was retried. -/
theorem makePolicy_noPermission_not_retried_witness :
    (makePolicy 3 (Provider.client sampleRules).withScript "p1" sampleDocument
      ([some serviceUnavailable, none, some noPermission], sampleProvider)).result
        = .error noPermission ∧
    (makePolicy 3 (Provider.client sampleRules).withScript "p1" sampleDocument
      ([some serviceUnavailable, none, some noPermission], sampleProvider)).attempts.length = 2 :=
  have h := makePolicy_noPermission_not_retried 3 (Provider.client sampleRules).withScript "p1"
    sampleDocument ([some serviceUnavailable, none, some noPermission], sampleProvider) 1 1
    [{ call := .getPolicy "Custom" "p1", error := none },
     { call := .listPolicyVersions "Custom" "p1", error := some noPermission }]
    { call := .listPolicyVersions "Custom" "p1", error := some noPermission } noPermission
    (by decide) (by decide) rfl rfl
  ⟨h.1, h.2.1.symm⟩

/-! ## Which calls an operation issues -/

theorem andThen_events_forall {σ α β : Type} (P : Event → Prop) (a : Step σ α)
    (f : α → σ → Step σ β) (ha : ∀ ev ∈ a.events, P ev)
    (hf : ∀ x s, ∀ ev ∈ (f x s).events, P ev) : ∀ ev ∈ (a.andThen f).events, P ev := by
  unfold Step.andThen
  split
  · exact ha
  · intro ev hev
    simp only [List.mem_append] at hev
    rcases hev with hev | hev
    · exact ha ev hev
    · exact hf _ _ ev hev

theorem deleteVersions_events_forall {σ : Type} (P : Event → Prop) (ram : RamClient σ)
    (policyName : String) (hP : ∀ v e, P { call := .deletePolicyVersion policyName v, error := e })
    (versions : List PolicyVersion) (s : σ) :
    ∀ ev ∈ (deleteVersions ram policyName versions s).events, P ev := by
  induction versions generalizing s with
  | nil => simp [deleteVersions]
  | cons version rest ih =>
    unfold deleteVersions
    split
    · apply andThen_events_forall P _ _ _ (fun _ s1 => ih s1)
      intro ev hev
      simp only [request, List.mem_singleton] at hev
      subst hev
      exact hP _ _
    · exact ih s

/-- Every call of the two branches of `makePolicy` is `createPolicy` or one of
the three operations on versions, with the given policy name. -/
theorem makePolicyBranch_events {σ : Type} (P : Event → Prop) (ram : RamClient σ)
    (policyName : String) (policyDocument : Json)
    (h2 : ∀ e, P { call := .createPolicy policyName "generated by fc fun" policyDocument.stringify,
                   error := e })
    (h3 : ∀ e, P { call := .listPolicyVersions "Custom" policyName, error := e })
    (h4 : ∀ v e, P { call := .deletePolicyVersion policyName v, error := e })
    (h5 : ∀ e, P { call := .createPolicyVersion policyName policyDocument.stringify true, error := e })
    (exists_ : Bool) (s : σ) :
    ∀ ev ∈ (makePolicyBranch ram policyName policyDocument exists_ s).events, P ev := by
  unfold makePolicyBranch
  split
  · intro ev hev
    simp only [request, List.mem_singleton] at hev
    subst hev
    exact h2 _
  · apply andThen_events_forall
    · unfold deletePolicyNotDefaultVersion
      apply andThen_events_forall
      · intro ev hev
        simp only [request, List.mem_singleton] at hev
        subst hev
        exact h3 _
      · intro listResponse s1
        split
        · exact deleteVersions_events_forall P ram policyName h4 _ s1
        · simp
    · intro _ s1 ev hev
      simp only [request, List.mem_singleton] at hev
      subst hev
      exact h5 _

/-- Every call of an invocation of the operation of `makePolicy` is one of the
five operations on policies, with the given policy name. -/
theorem makePolicyAttempt_events {σ : Type} (P : Event → Prop) (ram : RamClient σ)
    (policyName : String) (policyDocument : Json)
    (h1 : ∀ e, P { call := .getPolicy "Custom" policyName, error := e })
    (h2 : ∀ e, P { call := .createPolicy policyName "generated by fc fun" policyDocument.stringify,
                   error := e })
    (h3 : ∀ e, P { call := .listPolicyVersions "Custom" policyName, error := e })
    (h4 : ∀ v e, P { call := .deletePolicyVersion policyName v, error := e })
    (h5 : ∀ e, P { call := .createPolicyVersion policyName policyDocument.stringify true, error := e })
    (times : Nat) (exists_ : Bool) (s : σ) :
    ∀ ev ∈ (makePolicyAttempt ram policyName policyDocument times exists_ s).events, P ev := by
  have hbranch := makePolicyBranch_events P ram policyName policyDocument h2 h3 h4 h5
  have hget : ∀ ev ∈ (request (.getPolicy "Custom" policyName)
      (ram.getPolicy "Custom" policyName) s).events, P ev := by
    intro ev hev
    simp only [request, List.mem_singleton] at hev
    subst hev
    exact h1 _
  simp only [makePolicyAttempt, makePolicyTry]
  split
  · intro ev hev
    simp only [Step.after, List.mem_append] at hev
    rcases hev with hev | hev
    · exact hget ev hev
    · exact hbranch _ _ ev hev
  · split
    · exact hget
    · intro ev hev
      simp only [Step.after, List.mem_append] at hev
      rcases hev with hev | hev
      · exact hget ev hev
      · exact hbranch _ _ ev hev

/-- Every call of an invocation of the operation of `attachPolicyToRole` is
`listPoliciesForRole` for the role or `attachPolicyToRole` with the given
policy type, policy and role. -/
theorem attachPolicyToRoleAttempt_events {σ : Type} (P : Event → Prop) (toLower : String → String)
    (ram : RamClient σ) (policyName roleName policyType : String)
    (h1 : ∀ e, P { call := .listPoliciesForRole roleName, error := e })
    (h2 : ∀ e, P { call := .attachPolicyToRole policyType policyName roleName, error := e })
    (times : Nat) (vars : Unit) (s : σ) :
    ∀ ev ∈ (attachPolicyToRoleAttempt toLower ram policyName roleName policyType times vars s).events,
      P ev := by
  simp only [attachPolicyToRoleAttempt]
  apply andThen_events_forall
  · intro ev hev
    simp only [request, List.mem_singleton] at hev
    subst hev
    exact h1 _
  · intro policies s1
    split
    · simp
    · intro ev hev
      simp only [request, List.mem_singleton] at hev
      subst hev
      exact h2 _

/-! ## The compound operation -/

/-- C9: when `makePolicy` fails, `makeAndAttachPolicy` fails with the same error
and has issued the calls of `makePolicy` only, none of them a
`listPoliciesForRole` or `attachPolicyToRole` call, so `attachPolicyToRole` was
not invoked; when `makePolicy` succeeds, `attachPolicyToRole` is invoked once, on
the state `makePolicy` left, with policy type `Custom`: its result, state and
calls are what `makeAndAttachPolicy` continues with, and every attach call it
issues carries the type `Custom`.  In particular, when a remote call of
`makePolicy` (policy creation, say) fails with code `NoPermission`,
`makeAndAttachPolicy` fails with that error after the calls of `makePolicy`. -/
theorem makeAndAttachPolicy_sequence {σ : Type} (toLower : String → String) (retries : Nat)
    (ram : RamClient σ) (policyName : String) (policyDocument : Json) (roleName : String) (s : σ) :
    (∀ ex, (makePolicy retries ram policyName policyDocument s).result = .error ex →
      (makeAndAttachPolicy toLower retries ram policyName policyDocument roleName s).result
        = .error ex ∧
      (makeAndAttachPolicy toLower retries ram policyName policyDocument roleName s).state
        = (makePolicy retries ram policyName policyDocument s).state ∧
      (makeAndAttachPolicy toLower retries ram policyName policyDocument roleName s).events
        = (makePolicy retries ram policyName policyDocument s).attempts.flatten ∧
      ∀ ev ∈ (makeAndAttachPolicy toLower retries ram policyName policyDocument roleName s).events,
        (∀ r, ev.call ≠ .listPoliciesForRole r) ∧ (∀ t n r, ev.call ≠ .attachPolicyToRole t n r)) ∧
    ((makePolicy retries ram policyName policyDocument s).result = .ok () →
      (makeAndAttachPolicy toLower retries ram policyName policyDocument roleName s).result
        = (attachPolicyToRole toLower retries ram policyName roleName (some "Custom")
            (makePolicy retries ram policyName policyDocument s).state).result ∧
      (makeAndAttachPolicy toLower retries ram policyName policyDocument roleName s).state
        = (attachPolicyToRole toLower retries ram policyName roleName (some "Custom")
            (makePolicy retries ram policyName policyDocument s).state).state ∧
      (makeAndAttachPolicy toLower retries ram policyName policyDocument roleName s).events
        = (makePolicy retries ram policyName policyDocument s).attempts.flatten ++
          (attachPolicyToRole toLower retries ram policyName roleName (some "Custom")
            (makePolicy retries ram policyName policyDocument s).state).attempts.flatten ∧
      ∀ ev ∈ (attachPolicyToRole toLower retries ram policyName roleName (some "Custom")
            (makePolicy retries ram policyName policyDocument s).state).attempts.flatten,
        ∀ t n r, ev.call = .attachPolicyToRole t n r → t = "Custom" ∧ n = policyName ∧ r = roleName) ∧
    ∀ (i j : Nat) (evs : List Event) (ev : Event) (ex : Err),
      (makePolicy retries ram policyName policyDocument s).attempts[i]? = some evs →
      evs[j]? = some ev → ev.error = some ex → ex.code = some "NoPermission" →
      (makeAndAttachPolicy toLower retries ram policyName policyDocument roleName s).result
        = .error ex ∧
      (makeAndAttachPolicy toLower retries ram policyName policyDocument roleName s).events
        = (makePolicy retries ram policyName policyDocument s).attempts.flatten := by
  refine ⟨?_, ?_, ?_⟩
  rotate_left 2
  · intro i j evs ev ex hi hj herr hcode
    have hfail := (promiseRetryFrom_fatalLast (makePolicyAttempt ram policyName policyDocument)
      (fun ex => ex.code = some "NoPermission")
      (fun times vars s => makePolicyAttempt_noPermission ram policyName policyDocument times vars s)
      retries 1 true s i j evs ev ex hi hj herr hcode).1
    have hfail2 : (makePolicy retries ram policyName policyDocument s).result = .error ex := hfail
    simp [makeAndAttachPolicy, hfail2]
  · intro ex hex
    simp only [makeAndAttachPolicy, hex, true_and]
    intro ev hev
    simp only [List.mem_flatten] at hev
    obtain ⟨evs, hevs, hmem⟩ := hev
    exact promiseRetryFrom_forall_events (makePolicyAttempt ram policyName policyDocument)
      (fun ev => (∀ r, ev.call ≠ .listPoliciesForRole r) ∧
        (∀ t n r, ev.call ≠ .attachPolicyToRole t n r))
      (fun times vars s => makePolicyAttempt_events _ ram policyName policyDocument
        (by simp) (by simp) (by simp) (by simp) (by simp) times vars s)
      retries 1 true s evs hevs ev hmem
  · intro hok
    simp only [makeAndAttachPolicy, hok, true_and]
    intro ev hev
    simp only [List.mem_flatten] at hev
    obtain ⟨evs, hevs, hmem⟩ := hev
    exact promiseRetryFrom_forall_events
      (attachPolicyToRoleAttempt toLower ram policyName roleName "Custom")
      (fun ev => ∀ t n r, ev.call = .attachPolicyToRole t n r →
        t = "Custom" ∧ n = policyName ∧ r = roleName)
      (fun times vars s => attachPolicyToRoleAttempt_events _ toLower ram policyName roleName
        "Custom" (by simp) (by simp) times vars s)
      retries 1 () _ evs hevs ev hmem

/-- Witness for C9: policy creation is refused with `NoPermission`; the two
calls of `makePolicy` are all that is issued. -/
theorem makeAndAttachPolicy_sequence_witness :
    (makeAndAttachPolicy sampleRules.toLower 3 (Provider.client sampleRules).withScript "p1"
      sampleDocument "roleA" ([none, some noPermission], emptyProvider)).result
        = .error noPermission ∧
    (makeAndAttachPolicy sampleRules.toLower 3 (Provider.client sampleRules).withScript "p1"
      sampleDocument "roleA" ([none, some noPermission], emptyProvider)).events =
      [{ call := .getPolicy "Custom" "p1", error := some policyNotExist },
       { call := .createPolicy "p1" "generated by fc fun" sampleDocument.stringify,
         error := some noPermission }] :=
  have h := (makeAndAttachPolicy_sequence sampleRules.toLower 3
    (Provider.client sampleRules).withScript "p1" sampleDocument "roleA"
    ([none, some noPermission], emptyProvider)).1 noPermission (by decide)
  ⟨h.1, h.2.2.1.trans (by decide)⟩

/-! ## Invalid parameters -/

/-- C4, evaluated: `getPolicy` and `listPoliciesForRole` are rejected with a code
that starts with `InvalidParameter` on every call.  `makePolicy` and
`attachPolicyToRole` call `retry` each time and make all three invocations the
driver allows; `makeRole`, where `getRole` is rejected likewise, rethrows the
error from its first invocation. -/
theorem invalidParameter_retried_outside_makeRole :
    (makePolicy 2 (Provider.client sampleRules).withScript "p1" sampleDocument
      ([some invalidPolicyName, some invalidPolicyName, some invalidPolicyName],
        sampleProvider)).attempts =
      [[{ call := .getPolicy "Custom" "p1", error := some invalidPolicyName }],
       [{ call := .getPolicy "Custom" "p1", error := some invalidPolicyName }],
       [{ call := .getPolicy "Custom" "p1", error := some invalidPolicyName }]] ∧
    (makePolicyAttempt (Provider.client sampleRules).withScript "p1" sampleDocument 1 true
      ([some invalidPolicyName], sampleProvider)).outcome = .retry invalidPolicyName ∧
    (attachPolicyToRole sampleRules.toLower 2 (Provider.client sampleRules).withScript "p1" "roleA"
      (some "Custom")
      ([some invalidRoleName, some invalidRoleName, some invalidRoleName], sampleProvider)).attempts =
      [[{ call := .listPoliciesForRole "roleA", error := some invalidRoleName }],
       [{ call := .listPoliciesForRole "roleA", error := some invalidRoleName }],
       [{ call := .listPoliciesForRole "roleA", error := some invalidRoleName }]] ∧
    (attachPolicyToRoleAttempt sampleRules.toLower (Provider.client sampleRules).withScript "p1"
      "roleA" "Custom" 1 () ([some invalidRoleName], sampleProvider)).outcome
        = .retry invalidRoleName ∧
    (makeRoleRetry 2 (Provider.client sampleRules).withScript "roleA" true none none
      ([some invalidRoleName, some invalidRoleName, some invalidRoleName], sampleProvider)).attempts =
      [[{ call := .getRole "roleA", error := some invalidRoleName }]] ∧
    (makeRole 2 (Provider.client sampleRules).withScript "roleA" true none none
      ([some invalidRoleName, some invalidRoleName, some invalidRoleName], sampleProvider)).result
        = .error invalidRoleName := by
  refine ⟨?_, ?_, ?_, ?_, ?_, ?_⟩ <;> decide

/-! ## The stale `exists` flag -/

/-- Once some invocation establishes an invariant of the shared variables that
later invocations keep, every later invocation has the property the invariant
gives to the calls of an invocation. -/
theorem promiseRetryFrom_after {κ σ α : Type} (fn : Nat → κ → σ → AttemptRun κ σ α)
    (I : κ → Prop) (T Q : List Event → Prop)
    (h1 : ∀ times vars s, I vars → Q (fn times vars s).events ∧ I (fn times vars s).vars)
    (h2 : ∀ times vars s, T (fn times vars s).events → I (fn times vars s).vars)
    (n times : Nat) (vars : κ) (s : σ) (i j : Nat) (evsI evsJ : List Event)
    (hi : (promiseRetryFrom fn n times vars s).attempts[i]? = some evsI) (hT : T evsI)
    (hlt : i < j) (hj : (promiseRetryFrom fn n times vars s).attempts[j]? = some evsJ) :
    Q evsJ := by
  induction n generalizing times vars s i j with
  | zero =>
    simp only [promiseRetryFrom] at hj
    cases j with
    | zero => omega
    | succ j => simp at hj
  | succ n ih =>
    cases ho : (fn times vars s).outcome with
    | resolved x =>
      rw [promiseRetryFrom_resolved fn _ times vars s x ho] at hj
      cases j with
      | zero => omega
      | succ j => simp at hj
    | thrown ex =>
      rw [promiseRetryFrom_thrown fn _ times vars s ex ho] at hj
      cases j with
      | zero => omega
      | succ j => simp at hj
    | retry ex =>
      rw [promiseRetryFrom_retry_succ fn n times vars s ex ho] at hi hj
      cases j with
      | zero => omega
      | succ j =>
        simp only [List.getElem?_cons_succ] at hj
        cases i with
        | zero =>
          simp only [List.getElem?_cons_zero, Option.some.injEq] at hi
          subst hi
          exact promiseRetryFrom_forall_attempts fn (fun vars _ => I vars) Q
            (fun times vars s hI => h1 times vars s hI) n (times + 1) _ _ (h2 _ _ _ hT) evsJ
            (List.getElem?_mem hj)
        | succ i =>
          simp only [List.getElem?_cons_succ] at hi
          exact ih _ _ _ i j hi (by omega) hj

/-- With `exists` false, an invocation leaves it false and takes the create
branch whenever it gets past `getPolicy`. -/
theorem makePolicyAttempt_exists_false {σ : Type} (ram : RamClient σ) (policyName : String)
    (policyDocument : Json) (times : Nat) (s : σ) :
    CreateBranchOnly policyName policyDocument
      (makePolicyAttempt ram policyName policyDocument times false s).events ∧
    (makePolicyAttempt ram policyName policyDocument times false s).vars = false := by
  constructor
  · refine ⟨errorOf (ram.getPolicy "Custom" policyName s).1, ?_, ?_, ?_, ?_⟩
    · simp only [makePolicyAttempt, makePolicyTry, request]
      split
      · simp [Step.after]
      · split <;> simp [Step.after]
    · intro hg
      refine ⟨errorOf (ram.createPolicy policyName "generated by fc fun" policyDocument.stringify
        (ram.getPolicy "Custom" policyName s).2).1, ?_⟩
      simp only [makePolicyAttempt, makePolicyTry, request]
      split
      · simp [Step.after, makePolicyBranch, request]
      · rename_i ex hex
        have := hg ex (by simp [hex, errorOf])
        simp [this, Step.after, makePolicyBranch, request]
    · intro ex hg hne
      simp only [makePolicyAttempt, makePolicyTry, request]
      split
      · rename_i u hu
        simp [hu, errorOf] at hg
      · rename_i e he
        simp only [he, errorOf, Option.some.injEq] at hg
        subst hg
        simp [hne, he, errorOf]
    · have hbranch : ∀ (s : σ), ∀ ev ∈ (makePolicyBranch ram policyName policyDocument false s).events,
          ev.call.isVersionCall = false := by
        intro s ev hev
        simp only [makePolicyBranch, request] at hev
        simp only [Bool.not_false, ↓reduceIte, List.mem_singleton] at hev
        subst hev
        rfl
      simp only [makePolicyAttempt, makePolicyTry, request]
      split
      · intro ev hev
        simp only [Step.after, List.mem_append, List.mem_singleton] at hev
        rcases hev with hev | hev
        · subst hev
          rfl
        · exact hbranch _ ev hev
      · split
        · intro ev hev
          simp only [List.mem_singleton] at hev
          subst hev
          rfl
        · intro ev hev
          simp only [Step.after, List.mem_append, List.mem_singleton] at hev
          rcases hev with hev | hev
          · subst hev
            rfl
          · exact hbranch _ ev hev
  · simp only [makePolicyAttempt, makePolicyTry]
    split
    · rfl
    · split <;> rfl

/-- An invocation whose `getPolicy` raises `EntityNotExist.Policy` leaves `exists` false. -/
theorem makePolicyAttempt_notExist {σ : Type} (ram : RamClient σ) (policyName : String)
    (policyDocument : Json) (times : Nat) (exists_ : Bool) (s : σ) (ex : Err)
    (hmem : ({ call := .getPolicy "Custom" policyName, error := some ex } : Event) ∈
      (makePolicyAttempt ram policyName policyDocument times exists_ s).events)
    (hcode : ex.code = some "EntityNotExist.Policy") :
    (makePolicyAttempt ram policyName policyDocument times exists_ s).vars = false := by
  have hbranch : ∀ (b : Bool) (s : σ),
      ({ call := .getPolicy "Custom" policyName, error := some ex } : Event) ∉
        (makePolicyBranch ram policyName policyDocument b s).events := by
    intro b s hin
    have := makePolicyBranch_events (fun ev => ∀ t n, ev.call ≠ .getPolicy t n) ram policyName
      policyDocument (by simp) (by simp) (by simp) (by simp) b s _ hin
    exact this _ _ rfl
  simp only [makePolicyAttempt, makePolicyTry, request] at hmem ⊢
  split at hmem
  · rename_i u hu
    simp only [Step.after, List.mem_append, List.mem_singleton] at hmem
    rcases hmem with hmem | hmem
    · simp [hu, errorOf] at hmem
    · exact absurd hmem (hbranch _ _)
  · rename_i e he
    split at hmem
    · rename_i hne
      simp only [List.mem_singleton, Event.mk.injEq, true_and] at hmem
      simp only [he, errorOf, Option.some.injEq] at hmem
      subst hmem
      exact absurd hcode hne
    · rename_i hne
      simp [he, hne]

/-- C10, as amended: in one `makePolicy` call the flag `exists` only goes from
true to false (an invocation that starts with it false leaves it false), and
once the `getPolicy` of some invocation has raised `EntityNotExist.Policy`, every
later invocation of the call starts with `getPolicy`, issues no
`listPolicyVersions`, `deletePolicyVersion` or `createPolicyVersion`, and, when
its `getPolicy` returns or raises `EntityNotExist.Policy` again, issues exactly
one more call, `createPolicy` with the given name and document; a later
invocation whose `getPolicy` fails with any other code ends after that call,
without calling `createPolicy`. -/
theorem makePolicy_stale_exists {σ : Type} (retries : Nat) (ram : RamClient σ)
    (policyName : String) (policyDocument : Json) (s : σ) (i j : Nat) (evsI evsJ : List Event)
    (ex : Err)
    (hi : (makePolicy retries ram policyName policyDocument s).attempts[i]? = some evsI)
    (hmem : ({ call := .getPolicy "Custom" policyName, error := some ex } : Event) ∈ evsI)
    (hcode : ex.code = some "EntityNotExist.Policy") (hlt : i < j)
    (hj : (makePolicy retries ram policyName policyDocument s).attempts[j]? = some evsJ) :
    (∀ times s1, (makePolicyAttempt ram policyName policyDocument times false s1).vars = false) ∧
    ∃ g, evsJ[0]? = some { call := .getPolicy "Custom" policyName, error := g } ∧
      ((∀ e, g = some e → e.code = some "EntityNotExist.Policy") →
        ∃ c, evsJ = [{ call := .getPolicy "Custom" policyName, error := g },
          { call := .createPolicy policyName "generated by fc fun" policyDocument.stringify,
            error := c }]) ∧
      (∀ e, g = some e → e.code ≠ some "EntityNotExist.Policy" →
        evsJ = [{ call := .getPolicy "Custom" policyName, error := some e }]) ∧
      ∀ ev ∈ evsJ, ev.call.isVersionCall = false :=
  ⟨fun times s1 => (makePolicyAttempt_exists_false ram policyName policyDocument times s1).2,
   promiseRetryFrom_after (makePolicyAttempt ram policyName policyDocument)
    (fun vars => vars = false)
    (fun evs => ∃ ex, ({ call := .getPolicy "Custom" policyName, error := some ex } : Event) ∈ evs ∧
      ex.code = some "EntityNotExist.Policy")
    (CreateBranchOnly policyName policyDocument)
    (fun times vars s hv => by
      subst hv
      exact makePolicyAttempt_exists_false ram policyName policyDocument times s)
    (fun times vars s hT => by
      obtain ⟨ex, h1, h2⟩ := hT
      exact makePolicyAttempt_notExist ram policyName policyDocument times vars s ex h1 h2)
    retries 1 true s i j evsI evsJ hi ⟨ex, hmem, hcode⟩ hlt hj⟩

/-- Witness for C10 as amended: the policy exists, the first `getPolicy` is
answered with `EntityNotExist.Policy` and the `createPolicy` that follows fails;
the second invocation finds the policy and still calls `createPolicy`. -/
theorem makePolicy_stale_exists_witness :
    (makePolicy 1 (Provider.client sampleRules).withScript "p1" sampleDocument
      ([some policyNotExist, some serviceUnavailable], sampleProvider)).attempts[1]? =
      some [{ call := .getPolicy "Custom" "p1", error := none },
        { call := .createPolicy "p1" "generated by fc fun" sampleDocument.stringify,
          error := some (providerError "EntityAlreadyExists.Policy") }] ∧
    ∀ ev ∈ [({ call := .getPolicy "Custom" "p1", error := none } : Event),
        { call := .createPolicy "p1" "generated by fc fun" sampleDocument.stringify,
          error := some (providerError "EntityAlreadyExists.Policy") }],
      ev.call.isVersionCall = false :=
  have h := makePolicy_stale_exists 1 (Provider.client sampleRules).withScript "p1" sampleDocument
    ([some policyNotExist, some serviceUnavailable], sampleProvider) 0 1
    [{ call := .getPolicy "Custom" "p1", error := some policyNotExist },
     { call := .createPolicy "p1" "generated by fc fun" sampleDocument.stringify,
       error := some serviceUnavailable }]
    [{ call := .getPolicy "Custom" "p1", error := none },
     { call := .createPolicy "p1" "generated by fc fun" sampleDocument.stringify,
       error := some (providerError "EntityAlreadyExists.Policy") }]
    policyNotExist (by decide) (by decide) rfl (by decide) (by decide)
  ⟨by decide, h.2.elim (fun _ hg => hg.2.2.2)⟩

/-- Counterexample to C10 as stated: the first invocation's `getPolicy` raises
`EntityNotExist.Policy` and its `createPolicy` fails; in the second invocation
`getPolicy` fails with another code, so that invocation ends without a
`createPolicy` call. -/
theorem makePolicy_later_attempt_without_createPolicy :
    (makePolicy 1 (Provider.client sampleRules).withScript "p1" sampleDocument
      ([none, some serviceUnavailable, some serviceUnavailable], emptyProvider)).attempts =
      [[{ call := .getPolicy "Custom" "p1", error := some policyNotExist },
        { call := .createPolicy "p1" "generated by fc fun" sampleDocument.stringify,
          error := some serviceUnavailable }],
       [{ call := .getPolicy "Custom" "p1", error := some serviceUnavailable }]] ∧
    ¬ ∃ ev ∈ ((makePolicy 1 (Provider.client sampleRules).withScript "p1" sampleDocument
        ([none, some serviceUnavailable, some serviceUnavailable], emptyProvider)).attempts[1]?).getD [],
      ∃ n d doc, ev.call = .createPolicy n d doc := by
  have h : (makePolicy 1 (Provider.client sampleRules).withScript "p1" sampleDocument
      ([none, some serviceUnavailable, some serviceUnavailable], emptyProvider)).attempts =
      [[{ call := .getPolicy "Custom" "p1", error := some policyNotExist },
        { call := .createPolicy "p1" "generated by fc fun" sampleDocument.stringify,
          error := some serviceUnavailable }],
       [{ call := .getPolicy "Custom" "p1", error := some serviceUnavailable }]] := by
    decide
  refine ⟨h, ?_⟩
  rw [h]
  simp

/-! ## Attachments -/

/-- An invocation of the operation of `attachPolicyToRole` whose
`listPoliciesForRole` call returns issues the attach call exactly when no listed
policy has the lower-cased name of `policyName`. -/
theorem attachPolicyToRoleAttempt_attach_iff {σ : Type} (toLower : String → String)
    (ram : RamClient σ) (policyName roleName policyType : String) (times : Nat) (s : σ)
    (policies : ListPoliciesForRoleResponse)
    (hlist : (ram.listPoliciesForRole roleName s).1 = .ok policies) :
    ((∃ ev ∈ (attachPolicyToRoleAttempt toLower ram policyName roleName policyType times () s).events,
        ev.call = .attachPolicyToRole policyType policyName roleName) ↔
      ∀ item ∈ policies.Policies.Policy, toLower item.PolicyName ≠ toLower policyName) ∧
    ((∀ item ∈ policies.Policies.Policy, toLower item.PolicyName ≠ toLower policyName) →
      (attachPolicyToRoleAttempt toLower ram policyName roleName policyType times () s).events =
        [{ call := .listPoliciesForRole roleName, error := none },
         { call := .attachPolicyToRole policyType policyName roleName,
           error := errorOf (ram.attachPolicyToRole policyType policyName roleName
             (ram.listPoliciesForRole roleName s).2).1 }]) ∧
    ((∃ item ∈ policies.Policies.Policy, toLower item.PolicyName = toLower policyName) →
      (attachPolicyToRoleAttempt toLower ram policyName roleName policyType times () s).events =
        [{ call := .listPoliciesForRole roleName, error := none }] ∧
      (attachPolicyToRoleAttempt toLower ram policyName roleName policyType times () s).outcome =
        .resolved () ∧
      (attachPolicyToRoleAttempt toLower ram policyName roleName policyType times () s).state =
        (ram.listPoliciesForRole roleName s).2) := by
  cases hf : policies.Policies.Policy.find?
      (fun item => toLower item.PolicyName == toLower policyName) with
  | none =>
    have hno : ∀ item ∈ policies.Policies.Policy, toLower item.PolicyName ≠ toLower policyName := by
      intro item hitem
      have := List.find?_eq_none.mp hf item hitem
      simpa using this
    have hev : (attachPolicyToRoleAttempt toLower ram policyName roleName policyType times () s).events =
        [{ call := .listPoliciesForRole roleName, error := none },
         { call := .attachPolicyToRole policyType policyName roleName,
           error := errorOf (ram.attachPolicyToRole policyType policyName roleName
             (ram.listPoliciesForRole roleName s).2).1 }] := by
      simp [attachPolicyToRoleAttempt, Step.andThen, request, hlist, hf, errorOf]
    refine ⟨⟨fun _ => hno, fun _ => ?_⟩, fun _ => hev, ?_⟩
    · rw [hev]
      exact ⟨_, List.mem_cons_of_mem _ (List.mem_singleton.mpr rfl), rfl⟩
    · rintro ⟨item, hitem, heq⟩
      exact absurd heq (hno item hitem)
  | some found =>
    have hyes : ∃ item ∈ policies.Policies.Policy, toLower item.PolicyName = toLower policyName := by
      refine ⟨found, List.mem_of_find?_eq_some hf, ?_⟩
      have := List.find?_some hf
      simpa using this
    have hev : (attachPolicyToRoleAttempt toLower ram policyName roleName policyType times () s).events =
        [{ call := .listPoliciesForRole roleName, error := none }] := by
      simp [attachPolicyToRoleAttempt, Step.andThen, request, hlist, hf, errorOf]
    refine ⟨⟨?_, ?_⟩, ?_, fun _ => ⟨hev, ?_, ?_⟩⟩
    · rw [hev]
      rintro ⟨ev, hmem, hcall⟩
      simp only [List.mem_singleton] at hmem
      subst hmem
      simp at hcall
    · intro hno
      obtain ⟨item, hitem, heq⟩ := hyes
      exact absurd heq (hno item hitem)
    · intro hno
      obtain ⟨item, hitem, heq⟩ := hyes
      exact absurd heq (hno item hitem)
    · simp [attachPolicyToRoleAttempt, Step.andThen, request, hlist, hf]
    · simp [attachPolicyToRoleAttempt, Step.andThen, request, hlist, hf]

/-- On the reference provider: the policy is already attached to the role, so
`attachPolicyToRole` lists the policies of the role and does nothing else. -/
theorem attachPolicyToRole_provider_attached (rules : ProviderRules) (retries : Nat) (p : Provider)
    (policyName roleName : String) (policyType : Option String) (role : RoleResponse)
    (hrole : p.roles roleName = some role)
    (hatt : p.attachments rules policyName roleName ≠ []) :
    attachPolicyToRole rules.toLower retries (Provider.client rules) policyName roleName policyType p =
      { result := .ok (), vars := (), state := p,
        attempts := [[{ call := .listPoliciesForRole roleName, error := none }]] } := by
  have hlist : ((Provider.client rules).listPoliciesForRole roleName p) =
      (.ok { Policies := { Policy := p.attached roleName } }, p) := by
    simp [Provider.client, hrole]
  have hyes : ∃ item ∈ p.attached roleName, rules.toLower item.PolicyName = rules.toLower policyName := by
    obtain ⟨item, hitem⟩ := List.exists_mem_of_ne_nil _ hatt
    simp only [Provider.attachments, List.mem_filter, beq_iff_eq] at hitem
    exact ⟨item, hitem.1, hitem.2⟩
  obtain ⟨h1, h2, h3⟩ := (attachPolicyToRoleAttempt_attach_iff rules.toLower (Provider.client rules)
    policyName roleName (policyType.getD "System") 1 p _ (by rw [hlist])).2.2 hyes
  unfold attachPolicyToRole promiseRetry
  rw [promiseRetryFrom_resolved _ _ _ _ _ () h2, h1, h3, hlist]

/-- On the reference provider: the policy exists and is not attached to the
existing role, so `attachPolicyToRole` lists and then attaches it. -/
theorem attachPolicyToRole_provider_fresh (rules : ProviderRules) (retries : Nat) (p : Provider)
    (policyName roleName : String) (policyType : Option String) (role : RoleResponse)
    (pol : StoredPolicy) (hrole : p.roles roleName = some role)
    (hpol : p.policies (policyType.getD "System") (rules.toLower policyName) = some pol)
    (hatt : p.attachments rules policyName roleName = []) :
    attachPolicyToRole rules.toLower retries (Provider.client rules) policyName roleName policyType p =
      { result := .ok (), vars := (),
        state := { p with attached := (fun r =>
          if r = roleName then
            p.attached roleName ++
              [({ PolicyName := policyName, PolicyType := policyType.getD "System" } : AttachedPolicy)]
          else p.attached r) },
        attempts := [[{ call := .listPoliciesForRole roleName, error := none },
          { call := .attachPolicyToRole (policyType.getD "System") policyName roleName,
            error := none }]] } := by
  have hfind : (p.attached roleName).find?
      (fun item => rules.toLower item.PolicyName == rules.toLower policyName) = none := by
    rw [List.find?_eq_none]
    intro item hitem hmatch
    have : item ∈ p.attachments rules policyName roleName := by
      simp only [Provider.attachments, List.mem_filter]
      exact ⟨hitem, hmatch⟩
    rw [hatt] at this
    simp at this
  unfold attachPolicyToRole promiseRetry
  rw [promiseRetryFrom_resolved _ _ _ _ _ ()]
  · simp [attachPolicyToRoleAttempt, Step.andThen, request, Provider.client, hrole, hpol, hatt,
      hfind, errorOf]
  · simp [attachPolicyToRoleAttempt, Step.andThen, request, Provider.client, hrole, hpol, hatt,
      hfind]

/-- C3: on the reference provider, with the role and the policy stored and at
most one record of the policy among the role's attachments, two
`attachPolicyToRole` calls in succession both succeed, the second one issues
the `listPoliciesForRole` call only (no attach call) and leaves the provider
state as it found it, and afterwards the role has exactly one attachment record
for the policy.  For every client: an invocation whose `listPoliciesForRole` call
returns issues the attach call if and only if no listed policy has a name equal
to `policyName` after lower-casing both. -/
theorem attachPolicyToRole_twice (rules : ProviderRules) (retries : Nat) (p : Provider)
    (policyName roleName : String) (policyType : Option String) (role : RoleResponse)
    (pol : StoredPolicy) (hrole : p.roles roleName = some role)
    (hpol : p.policies (policyType.getD "System") (rules.toLower policyName) = some pol)
    (hone : (p.attachments rules policyName roleName).length ≤ 1) :
    (attachPolicyToRole rules.toLower retries (Provider.client rules) policyName roleName
      policyType p).result = .ok () ∧
    (attachPolicyToRole rules.toLower retries (Provider.client rules) policyName roleName policyType
      (attachPolicyToRole rules.toLower retries (Provider.client rules) policyName roleName
        policyType p).state).result = .ok () ∧
    (attachPolicyToRole rules.toLower retries (Provider.client rules) policyName roleName policyType
      (attachPolicyToRole rules.toLower retries (Provider.client rules) policyName roleName
        policyType p).state).attempts =
      [[{ call := .listPoliciesForRole roleName, error := none }]] ∧
    (attachPolicyToRole rules.toLower retries (Provider.client rules) policyName roleName policyType
      (attachPolicyToRole rules.toLower retries (Provider.client rules) policyName roleName
        policyType p).state).state =
      (attachPolicyToRole rules.toLower retries (Provider.client rules) policyName roleName
        policyType p).state ∧
    (((attachPolicyToRole rules.toLower retries (Provider.client rules) policyName roleName policyType
      (attachPolicyToRole rules.toLower retries (Provider.client rules) policyName roleName
        policyType p).state).state).attachments rules policyName roleName).length = 1 ∧
    ∀ (σ : Type) (toLower : String → String) (ram : RamClient σ) (attachType : String)
      (times : Nat) (s : σ) (policies : ListPoliciesForRoleResponse),
      (ram.listPoliciesForRole roleName s).1 = .ok policies →
      ((∃ ev ∈ (attachPolicyToRoleAttempt toLower ram policyName roleName attachType times () s).events,
          ev.call = .attachPolicyToRole attachType policyName roleName) ↔
        ∀ item ∈ policies.Policies.Policy, toLower item.PolicyName ≠ toLower policyName) := by
  have hgen : ∀ (σ : Type) (toLower : String → String) (ram : RamClient σ) (attachType : String)
      (times : Nat) (s : σ) (policies : ListPoliciesForRoleResponse),
      (ram.listPoliciesForRole roleName s).1 = .ok policies →
      ((∃ ev ∈ (attachPolicyToRoleAttempt toLower ram policyName roleName attachType times () s).events,
          ev.call = .attachPolicyToRole attachType policyName roleName) ↔
        ∀ item ∈ policies.Policies.Policy, toLower item.PolicyName ≠ toLower policyName) :=
    fun σ toLower ram attachType times s policies hlist =>
      (attachPolicyToRoleAttempt_attach_iff toLower ram policyName roleName attachType times s
        policies hlist).1
  by_cases hatt : p.attachments rules policyName roleName = []
  · have h1 := attachPolicyToRole_provider_fresh rules retries p policyName roleName policyType role
      pol hrole hpol hatt
    have hatt2 : Provider.attachments rules
        { p with attached := (fun r =>
          if r = roleName then
            p.attached roleName ++
              [({ PolicyName := policyName, PolicyType := policyType.getD "System" } : AttachedPolicy)]
          else p.attached r) } policyName roleName =
        [{ PolicyName := policyName, PolicyType := policyType.getD "System" }] := by
      simp only [Provider.attachments] at hatt ⊢
      simp [List.filter_append, hatt]
    have h2 := attachPolicyToRole_provider_attached rules retries
      { p with attached := (fun r =>
          if r = roleName then
            p.attached roleName ++
              [({ PolicyName := policyName, PolicyType := policyType.getD "System" } : AttachedPolicy)]
          else p.attached r) } policyName roleName policyType role hrole
      (by rw [hatt2]; simp)
    rw [h1]
    simp only [h2, hatt2, List.length_singleton, true_and]
    exact hgen
  · have h1 := attachPolicyToRole_provider_attached rules retries p policyName roleName policyType
      role hrole hatt
    rw [h1]
    simp only [h1, true_and]
    refine ⟨?_, hgen⟩
    have : 0 < (p.attachments rules policyName roleName).length := List.length_pos.mpr hatt
    omega

/-- Witness for C3: attaching the stored policy `p1` to the role `roleA` of the
sample provider twice. -/
theorem attachPolicyToRole_twice_witness :
    (attachPolicyToRole sampleRules.toLower 2 (Provider.client sampleRules) "p1" "roleA" (some "Custom")
      (attachPolicyToRole sampleRules.toLower 2 (Provider.client sampleRules) "p1" "roleA"
        (some "Custom") sampleProvider).state).attempts =
      [[{ call := .listPoliciesForRole "roleA", error := none }]] ∧
    (((attachPolicyToRole sampleRules.toLower 2 (Provider.client sampleRules) "p1" "roleA"
      (some "Custom")
      (attachPolicyToRole sampleRules.toLower 2 (Provider.client sampleRules) "p1" "roleA"
        (some "Custom") sampleProvider).state).state).attachments sampleRules "p1" "roleA").length
      = 1 :=
  have h := attachPolicyToRole_twice sampleRules 2 sampleProvider "p1" "roleA" (some "Custom")
    sampleRole samplePolicy (by decide) (by decide) (by decide)
  ⟨h.2.2.1, h.2.2.2.2.1⟩

/-! ## Policies on the reference provider -/

theorem setPolicy_policies (p : Provider) (policyType key : String) (pol : StoredPolicy) :
    (p.setPolicy policyType key pol).policies policyType key = some pol := by
  simp [Provider.setPolicy]

theorem setPolicy_setPolicy (p : Provider) (policyType key : String) (a b : StoredPolicy) :
    (p.setPolicy policyType key a).setPolicy policyType key b = p.setPolicy policyType key b := by
  simp only [Provider.setPolicy, Provider.mk.injEq, and_self, and_true]
  funext t n
  split <;> rfl

theorem setPolicy_self (p : Provider) (policyType key : String) (pol : StoredPolicy)
    (h : p.policies policyType key = some pol) : p.setPolicy policyType key pol = p := by
  cases p with
  | mk policies roles attached =>
    simp only [Provider.setPolicy, Provider.mk.injEq, and_self, and_true]
    funext t n
    split
    · rename_i hk
      obtain ⟨h1, h2⟩ := hk
      subst h1 h2
      exact h.symm
    · rfl

/-- Deleting a non-default version whose identifier is unique removes just it. -/
theorem provider_deletePolicyVersion (rules : ProviderRules) (p : Provider) (policyName : String)
    (pol : StoredPolicy) (pre rest : List StoredVersion) (v : StoredVersion)
    (hpol : p.policies "Custom" (rules.toLower policyName) = some pol)
    (hvers : pol.versions = pre ++ v :: rest)
    (hnd : ((pre ++ v :: rest).map StoredVersion.VersionId).Nodup)
    (hv : v.IsDefaultVersion = false) :
    (Provider.client rules).deletePolicyVersion policyName v.VersionId p =
      (.ok (), p.setPolicy "Custom" (rules.toLower policyName) { pol with versions := pre ++ rest }) := by
  simp only [List.map_append, List.map_cons, List.nodup_append, List.nodup_cons] at hnd
  obtain ⟨_, ⟨hrest, _⟩, hdis⟩ := hnd
  have hpre : ∀ w ∈ pre, w.VersionId ≠ v.VersionId := by
    intro w hw heq
    exact hdis (List.mem_map_of_mem _ hw) (by rw [heq]; exact List.mem_cons_self _ _)
  have hrest2 : ∀ w ∈ rest, w.VersionId ≠ v.VersionId := by
    intro w hw heq
    exact hrest (by rw [← heq]; exact List.mem_map_of_mem _ hw)
  have hfind : (pre ++ v :: rest).find? (fun w => w.VersionId == v.VersionId) = some v := by
    rw [List.find?_append]
    have : pre.find? (fun w => w.VersionId == v.VersionId) = none := by
      rw [List.find?_eq_none]
      intro w hw
      simpa using hpre w hw
    simp [this]
  have hfilter : (pre ++ v :: rest).filter (fun w => w.VersionId != v.VersionId) = pre ++ rest := by
    rw [List.filter_append]
    have h1 : pre.filter (fun w => w.VersionId != v.VersionId) = pre := by
      rw [List.filter_eq_self]
      intro w hw
      simpa using hpre w hw
    have h2 : (v :: rest).filter (fun w => w.VersionId != v.VersionId) = rest := by
      rw [List.filter_cons_of_neg (by simp), List.filter_eq_self]
      intro w hw
      simpa using hrest2 w hw
    rw [h1, h2]
  simp [Provider.client, hpol, hvers, hfind, hv, hfilter]

/-- The loop of `deletePolicyNotDefaultVersion` on the reference provider: every
listed non-default version is deleted, in order, and the default ones stay. -/
theorem deleteVersions_provider (rules : ProviderRules) (policyName : String)
    (rest pre : List StoredVersion) (p : Provider) (pol : StoredPolicy)
    (hpol : p.policies "Custom" (rules.toLower policyName) = some pol)
    (hvers : pol.versions = pre ++ rest)
    (hnd : ((pre ++ rest).map StoredVersion.VersionId).Nodup) :
    deleteVersions (Provider.client rules) policyName (rest.map StoredVersion.listed) p =
      { result := .ok (),
        state := p.setPolicy "Custom" (rules.toLower policyName)
          { pol with versions := pre ++ rest.filter StoredVersion.IsDefaultVersion },
        events := (rest.filter (fun v => !v.IsDefaultVersion)).map (deleted policyName) } := by
  induction rest generalizing pre p pol with
  | nil =>
    have hp : ({ pol with versions := pre ++ [] } : StoredPolicy) = pol := by
      cases pol
      simp_all
    simp only [List.map_nil, deleteVersions, List.filter_nil, hp, setPolicy_self p _ _ pol hpol]
  | cons v rest ih =>
    cases hv : v.IsDefaultVersion with
    | true =>
      have := ih (pre ++ [v]) p pol hpol (by simp [hvers]) (by simpa using hnd)
      simp only [List.map_cons, deleteVersions, StoredVersion.listed, hv]
      simp only [Option.some.injEq, Bool.true_eq_false, ↓reduceIte]
      simp only [StoredVersion.listed] at this
      rw [this]
      simp [List.filter_cons, hv]
    | false =>
      have hdel := provider_deletePolicyVersion rules p policyName pol pre rest v hpol hvers hnd hv
      have hnd2 : ((pre ++ rest).map StoredVersion.VersionId).Nodup := by
        simp only [List.map_append, List.map_cons, List.nodup_append, List.nodup_cons] at hnd ⊢
        obtain ⟨h1, ⟨_, h2⟩, h3⟩ := hnd
        refine ⟨h1, h2, ?_⟩
        intro a ha hb
        exact h3 ha (List.mem_cons_of_mem _ hb)
      have := ih pre (p.setPolicy "Custom" (rules.toLower policyName) { pol with versions := pre ++ rest })
        { pol with versions := pre ++ rest } (setPolicy_policies _ _ _ _) rfl hnd2
      simp only [List.map_cons, deleteVersions, StoredVersion.listed, hv]
      simp only [↓reduceIte, Step.andThen, request, hdel]
      simp only [StoredVersion.listed] at this
      rw [this]
      simp [List.filter_cons, hv, setPolicy_setPolicy, deleted, errorOf]

/-- On the reference provider, for a stored policy with distinct version
identifiers and room for one more version after pruning: one invocation of the
operation of `makePolicy` deletes the non-default versions and adds the new default
version. -/
theorem makePolicyAttempt_provider_present (rules : ProviderRules) (p : Provider)
    (policyName : String) (policyDocument : Json) (pol : StoredPolicy) (times : Nat)
    (hpol : p.policies "Custom" (rules.toLower policyName) = some pol)
    (hnd : (pol.versions.map StoredVersion.VersionId).Nodup)
    (hroom : (pol.versions.filter StoredVersion.IsDefaultVersion).length < rules.versionLimit) :
    makePolicyAttempt (Provider.client rules) policyName policyDocument times true p =
      { outcome := .resolved (), vars := true,
        state := p.setPolicy "Custom" (rules.toLower policyName)
          { pol with
            versions := (pol.versions.filter StoredVersion.IsDefaultVersion).map StoredVersion.demote ++
              [newDefaultVersion rules pol policyDocument.stringify],
            created := pol.created + 1 },
        events := [{ call := .getPolicy "Custom" policyName, error := none },
            { call := .listPolicyVersions "Custom" policyName, error := none }] ++
          (pol.versions.filter (fun v => !v.IsDefaultVersion)).map (deleted policyName) ++
          [{ call := .createPolicyVersion policyName policyDocument.stringify true, error := none }] } := by
  have hget : (Provider.client rules).getPolicy "Custom" policyName p = (.ok (), p) := by
    simp [Provider.client, hpol]
  have hlist : (Provider.client rules).listPolicyVersions "Custom" policyName p =
      (.ok { PolicyVersions := some { PolicyVersion := some (pol.versions.map StoredVersion.listed) } },
        p) := by
    simp [Provider.client, hpol]
  have hdel := deleteVersions_provider rules policyName pol.versions [] p pol hpol (by simp)
    (by simpa using hnd)
  have hcreate : (Provider.client rules).createPolicyVersion policyName policyDocument.stringify true
      (p.setPolicy "Custom" (rules.toLower policyName)
        { pol with versions := [] ++ pol.versions.filter StoredVersion.IsDefaultVersion }) =
      (.ok (), p.setPolicy "Custom" (rules.toLower policyName)
        { pol with
          versions := (pol.versions.filter StoredVersion.IsDefaultVersion).map StoredVersion.demote ++
            [newDefaultVersion rules pol policyDocument.stringify],
          created := pol.created + 1 }) := by
    simp [Provider.client, setPolicy_policies, setPolicy_setPolicy, Nat.not_le.mpr hroom,
      newDefaultVersion]
  simp only [makePolicyAttempt, makePolicyTry, makePolicyBranch, deletePolicyNotDefaultVersion,
    request, hget, Step.after, Step.andThen, hlist, listedVersions, hdel, hcreate]
  simp [errorOf]

/-- The whole `makePolicy` call in the situation of `makePolicyAttempt_provider_present`. -/
theorem makePolicy_provider_present (rules : ProviderRules) (retries : Nat) (p : Provider)
    (policyName : String) (policyDocument : Json) (pol : StoredPolicy)
    (hpol : p.policies "Custom" (rules.toLower policyName) = some pol)
    (hnd : (pol.versions.map StoredVersion.VersionId).Nodup)
    (hroom : (pol.versions.filter StoredVersion.IsDefaultVersion).length < rules.versionLimit) :
    makePolicy retries (Provider.client rules) policyName policyDocument p =
      { result := .ok (), vars := true,
        state := p.setPolicy "Custom" (rules.toLower policyName)
          { pol with
            versions := (pol.versions.filter StoredVersion.IsDefaultVersion).map StoredVersion.demote ++
              [newDefaultVersion rules pol policyDocument.stringify],
            created := pol.created + 1 },
        attempts := [[{ call := .getPolicy "Custom" policyName, error := none },
            { call := .listPolicyVersions "Custom" policyName, error := none }] ++
          (pol.versions.filter (fun v => !v.IsDefaultVersion)).map (deleted policyName) ++
          [{ call := .createPolicyVersion policyName policyDocument.stringify true, error := none }]] } := by
  have h := makePolicyAttempt_provider_present rules p policyName policyDocument pol 1 hpol hnd hroom
  unfold makePolicy promiseRetry
  rw [promiseRetryFrom_resolved _ _ _ _ _ () (by rw [h]), h]

/-- The whole `makePolicy` call on the reference provider when the policy is not stored. -/
theorem makePolicy_provider_absent (rules : ProviderRules) (retries : Nat) (p : Provider)
    (policyName : String) (policyDocument : Json)
    (hpol : p.policies "Custom" (rules.toLower policyName) = none) :
    makePolicy retries (Provider.client rules) policyName policyDocument p =
      { result := .ok (), vars := false,
        state := p.setPolicy "Custom" (rules.toLower policyName)
          { Description := "generated by fc fun",
            versions := [{ VersionId := rules.versionId 0, IsDefaultVersion := true,
                           PolicyDocument := policyDocument.stringify }],
            created := 1 },
        attempts := [[{ call := .getPolicy "Custom" policyName,
                        error := some (providerError "EntityNotExist.Policy") },
          { call := .createPolicy policyName "generated by fc fun" policyDocument.stringify,
            error := none }]] } := by
  unfold makePolicy promiseRetry
  rw [promiseRetryFrom_resolved _ _ _ _ _ ()]
  · simp [makePolicyAttempt, makePolicyTry, makePolicyBranch, request, Step.after, Provider.client,
      hpol, providerError, errorOf]
  · simp [makePolicyAttempt, makePolicyTry, makePolicyBranch, request, Step.after, Provider.client,
      hpol, providerError]

theorem filter_default_demote (l : List StoredVersion) :
    (l.map StoredVersion.demote).filter StoredVersion.IsDefaultVersion = [] := by
  induction l with
  | nil => rfl
  | cons v l ih => simp [List.filter_cons, StoredVersion.demote, ih]

theorem filter_default_after_create (rules : ProviderRules) (pol : StoredPolicy) (doc : String)
    (l : List StoredVersion) :
    (l.map StoredVersion.demote ++ [newDefaultVersion rules pol doc]).filter
      StoredVersion.IsDefaultVersion = [newDefaultVersion rules pol doc] := by
  rw [List.filter_append, filter_default_demote]
  simp [newDefaultVersion]

theorem map_versionId_demote (l : List StoredVersion) :
    (l.map StoredVersion.demote).map StoredVersion.VersionId = l.map StoredVersion.VersionId := by
  induction l with
  | nil => rfl
  | cons v l ih => simp [StoredVersion.demote]

/-- Whatever the provider lists, the loop of `deletePolicyNotDefaultVersion`
passes to `deletePolicyVersion` only versions listed with `IsDefaultVersion === false`. -/
theorem deleteVersions_only_non_default {σ : Type} (ram : RamClient σ) (policyName : String)
    (versions : List PolicyVersion) (s : σ) :
    ∀ ev ∈ (deleteVersions ram policyName versions s).events,
      ∃ v ∈ versions, v.IsDefaultVersion = some false ∧
        ev.call = .deletePolicyVersion policyName v.VersionId := by
  induction versions generalizing s with
  | nil => simp [deleteVersions]
  | cons version rest ih =>
    unfold deleteVersions
    split
    · rename_i hv
      apply andThen_events_forall
      · intro ev hev
        simp only [request, List.mem_singleton] at hev
        subst hev
        exact ⟨version, List.mem_cons_self _ _, hv, rfl⟩
      · intro _ s1 ev hev
        obtain ⟨v, hv1, hv2⟩ := ih s1 ev hev
        exact ⟨v, List.mem_cons_of_mem _ hv1, hv2⟩
    · intro ev hev
      obtain ⟨v, hv1, hv2⟩ := ih s ev hev
      exact ⟨v, List.mem_cons_of_mem _ hv1, hv2⟩

/-- For every client whose `deletePolicyVersion` calls return: the pruning loop
issues one call for each listed version with `IsDefaultVersion === false`, in
the order of the listing, and returns. -/
theorem deleteVersions_all_returned {σ : Type} (ram : RamClient σ) (policyName : String)
    (hdel : ∀ v s, (ram.deletePolicyVersion policyName v s).1 = .ok ())
    (versions : List PolicyVersion) (s : σ) :
    (deleteVersions ram policyName versions s).result = .ok () ∧
    (deleteVersions ram policyName versions s).events =
      (versions.filter (fun v => decide (v.IsDefaultVersion = some false))).map
        (fun v => { call := .deletePolicyVersion policyName v.VersionId, error := none }) := by
  induction versions generalizing s with
  | nil => simp [deleteVersions]
  | cons version rest ih =>
    unfold deleteVersions
    split
    · rename_i hv
      simp only [Step.andThen, request, hdel, errorOf]
      simp [ih, List.filter_cons, hv]
    · rename_i hv
      simp [ih, List.filter_cons, hv]

/-- For every client: an invocation of the operation of `makePolicy` that finds
the policy (with `exists` still true), gets a listing of its versions and whose
`deletePolicyVersion` calls return issues `getPolicy`, `listPolicyVersions`, one
`deletePolicyVersion` for each version listed with `IsDefaultVersion === false`
and then `createPolicyVersion` with the document and `SetAsDefault = true`. -/
theorem makePolicyAttempt_stored_calls {σ : Type} (ram : RamClient σ) (policyName : String)
    (policyDocument : Json) (times : Nat) (s : σ) (listResponse : ListPolicyVersionsResponse)
    (versions : List PolicyVersion)
    (hget : (ram.getPolicy "Custom" policyName s).1 = .ok ())
    (hlist : (ram.listPolicyVersions "Custom" policyName (ram.getPolicy "Custom" policyName s).2).1
      = .ok listResponse)
    (hvs : listedVersions listResponse = some versions)
    (hdel : ∀ v s, (ram.deletePolicyVersion policyName v s).1 = .ok ()) :
    ∃ c, (makePolicyAttempt ram policyName policyDocument times true s).events =
      [{ call := .getPolicy "Custom" policyName, error := none },
        { call := .listPolicyVersions "Custom" policyName, error := none }] ++
      (versions.filter (fun v => decide (v.IsDefaultVersion = some false))).map
        (fun v => { call := .deletePolicyVersion policyName v.VersionId, error := none }) ++
      [{ call := .createPolicyVersion policyName policyDocument.stringify true, error := c }] := by
  obtain ⟨h1, h2⟩ := deleteVersions_all_returned ram policyName hdel versions
    (ram.listPolicyVersions "Custom" policyName (ram.getPolicy "Custom" policyName s).2).2
  refine ⟨errorOf (ram.createPolicyVersion policyName policyDocument.stringify true
    (deleteVersions ram policyName versions
      (ram.listPolicyVersions "Custom" policyName (ram.getPolicy "Custom" policyName s).2).2).state).1,
    ?_⟩
  simp only [makePolicyAttempt, makePolicyTry, makePolicyBranch, deletePolicyNotDefaultVersion,
    request, hget, Step.after, Step.andThen, hlist, hvs, h1, h2]
  simp [errorOf]

/-- C1: on the reference provider, for a stored policy with at least two
versions of which exactly one is the default, a `makePolicy` call succeeds in a
single invocation in which every remote call returns: `getPolicy`,
`listPolicyVersions`, one `deletePolicyVersion` for each version that was not
the default, and `createPolicyVersion` with `SetAsDefault = true`.  Afterwards
exactly one version is marked default, the one this call created; every version
that was not the default before has been deleted by a `deletePolicyVersion` call
and is gone; the former default version was never passed to `deletePolicyVersion`.
For every client, the pruning loop passes to `deletePolicyVersion` only versions
that were listed with `IsDefaultVersion === false`; and when the policy is found,
its versions are listed and the `deletePolicyVersion` calls return, the
invocation issues `getPolicy`, `listPolicyVersions`, one `deletePolicyVersion` for
each version listed as non-default, and `createPolicyVersion` with the document
and `SetAsDefault = true`. -/
theorem makePolicy_prunes_and_promotes (rules : ProviderRules) (retries : Nat) (p : Provider)
    (policyName : String) (policyDocument : Json) (pol : StoredPolicy)
    (hpol : p.policies "Custom" (rules.toLower policyName) = some pol)
    (hwf : WellFormedPolicy rules pol) (htwo : 2 ≤ pol.versions.length) :
    (makePolicy retries (Provider.client rules) policyName policyDocument p).result = .ok () ∧
    (makePolicy retries (Provider.client rules) policyName policyDocument p).attempts =
      [[{ call := .getPolicy "Custom" policyName, error := none },
          { call := .listPolicyVersions "Custom" policyName, error := none }] ++
        (pol.versions.filter (fun v => !v.IsDefaultVersion)).map (deleted policyName) ++
        [{ call := .createPolicyVersion policyName policyDocument.stringify true, error := none }]] ∧
    (∃ pol1, (makePolicy retries (Provider.client rules) policyName policyDocument p).state.policies
        "Custom" (rules.toLower policyName) = some pol1 ∧
      pol1.versions.filter StoredVersion.IsDefaultVersion =
        [newDefaultVersion rules pol policyDocument.stringify] ∧
      (newDefaultVersion rules pol policyDocument.stringify).VersionId ∉
        pol.versions.map StoredVersion.VersionId ∧
      (∀ v ∈ pol.versions, v.IsDefaultVersion = false →
        v.VersionId ∉ pol1.versions.map StoredVersion.VersionId ∧
        deleted policyName v ∈
          (makePolicy retries (Provider.client rules) policyName policyDocument p).attempts.flatten) ∧
      ∀ v ∈ pol.versions, v.IsDefaultVersion = true →
        ∀ ev ∈ (makePolicy retries (Provider.client rules) policyName policyDocument p).attempts.flatten,
          ∀ n, ev.call ≠ .deletePolicyVersion n v.VersionId) ∧
    (∀ (σ : Type) (ram : RamClient σ) (versions : List PolicyVersion) (s : σ),
      ∀ ev ∈ (deleteVersions ram policyName versions s).events,
        ∃ v ∈ versions, v.IsDefaultVersion = some false ∧
          ev.call = .deletePolicyVersion policyName v.VersionId) ∧
    ∀ (σ : Type) (ram : RamClient σ) (times : Nat) (s : σ)
      (listResponse : ListPolicyVersionsResponse) (versions : List PolicyVersion),
      (ram.getPolicy "Custom" policyName s).1 = .ok () →
      (ram.listPolicyVersions "Custom" policyName (ram.getPolicy "Custom" policyName s).2).1
        = .ok listResponse →
      listedVersions listResponse = some versions →
      (∀ v s, (ram.deletePolicyVersion policyName v s).1 = .ok ()) →
      ∃ c, (makePolicyAttempt ram policyName policyDocument times true s).events =
        [{ call := .getPolicy "Custom" policyName, error := none },
          { call := .listPolicyVersions "Custom" policyName, error := none }] ++
        (versions.filter (fun v => decide (v.IsDefaultVersion = some false))).map
          (fun v => { call := .deletePolicyVersion policyName v.VersionId, error := none }) ++
        [{ call := .createPolicyVersion policyName policyDocument.stringify true, error := c }] := by
  obtain ⟨hnd, hfresh, hone, hcap⟩ := hwf
  have hroom : (pol.versions.filter StoredVersion.IsDefaultVersion).length < rules.versionLimit := by
    omega
  have hrun := makePolicy_provider_present rules retries p policyName policyDocument pol hpol hnd hroom
  have hinj := List.inj_on_of_nodup_map hnd
  rw [hrun]
  refine ⟨rfl, rfl, ⟨_, setPolicy_policies _ _ _ _, ?_, hfresh, ?_, ?_⟩,
    fun σ ram versions s => deleteVersions_only_non_default ram policyName versions s,
    fun σ ram times s listResponse versions hget hlist hvs hdel =>
      makePolicyAttempt_stored_calls ram policyName policyDocument times s listResponse versions
        hget hlist hvs hdel⟩
  · exact filter_default_after_create rules pol _ _
  · intro v hv hvd
    constructor
    · simp only [List.map_append, map_versionId_demote, List.map_cons, List.map_nil,
        List.mem_append, List.mem_map, List.mem_filter, List.mem_singleton, not_or]
      constructor
      · rintro ⟨w, ⟨hw, hwd⟩, heq⟩
        have := hinj hw hv heq
        subst this
        simp [hvd] at hwd
      · intro heq
        apply hfresh
        simp only [newDefaultVersion] at heq
        rw [← heq]
        exact List.mem_map_of_mem _ hv
    · simp only [List.flatten_cons, List.flatten_nil, List.append_nil, List.mem_append, List.mem_map,
        List.mem_filter]
      exact Or.inl (Or.inr ⟨v, ⟨hv, by simp [hvd]⟩, rfl⟩)
  · intro v hv hvd ev hev n heq
    simp only [List.flatten_cons, List.flatten_nil, List.append_nil, List.mem_append, List.mem_map,
      List.mem_filter, List.mem_cons, List.mem_singleton, List.not_mem_nil, or_false] at hev
    rcases hev with (((hev | hev) | ⟨w, ⟨hw, hwd⟩, hev⟩) | hev)
    · subst hev
      simp at heq
    · subst hev
      simp at heq
    · subst hev
      simp only [deleted, Call.deletePolicyVersion.injEq] at heq
      have := hinj hw hv heq.2
      subst this
      simp [hvd] at hwd
    · subst hev
      simp at heq

/-- Witness for C1: the sample provider stores `p1` with three versions, the
second one the default. -/
theorem makePolicy_prunes_and_promotes_witness :
    (makePolicy 2 (Provider.client sampleRules) "p1" sampleDocument sampleProvider).attempts =
      [[{ call := .getPolicy "Custom" "p1", error := none },
        { call := .listPolicyVersions "Custom" "p1", error := none },
        { call := .deletePolicyVersion "p1" "v", error := none },
        { call := .deletePolicyVersion "p1" "vvv", error := none },
        { call := .createPolicyVersion "p1" sampleDocument.stringify true, error := none }]] :=
  (makePolicy_prunes_and_promotes sampleRules 2 sampleProvider "p1" sampleDocument samplePolicy
    (by decide) ⟨by decide, by decide, by decide, by decide⟩ (by decide)).2.1

/-- C2: on the reference provider, whether the policy is absent or stored (in a
well-formed state), two `makePolicy` calls in succession with the same document
both succeed in a single invocation each, and afterwards the policy has exactly
one default version, whose document is `JSON.stringify` of the supplied document.
For every client, each `createPolicy` and `createPolicyVersion` call of an
invocation carries the given name and `JSON.stringify` of the supplied document,
and `createPolicyVersion` is sent with `SetAsDefault = true`. -/
theorem makePolicy_twice (rules : ProviderRules) (retries : Nat) (p : Provider)
    (policyName : String) (policyDocument : Json) (hlimit : 2 ≤ rules.versionLimit)
    (hwf : ∀ pol, p.policies "Custom" (rules.toLower policyName) = some pol →
      WellFormedPolicy rules pol) :
    (makePolicy retries (Provider.client rules) policyName policyDocument p).result = .ok () ∧
    (makePolicy retries (Provider.client rules) policyName policyDocument p).attempts.length = 1 ∧
    (makePolicy retries (Provider.client rules) policyName policyDocument
      (makePolicy retries (Provider.client rules) policyName policyDocument p).state).result
        = .ok () ∧
    (makePolicy retries (Provider.client rules) policyName policyDocument
      (makePolicy retries (Provider.client rules) policyName policyDocument p).state).attempts.length
        = 1 ∧
    (∃ pol2 v, (makePolicy retries (Provider.client rules) policyName policyDocument
        (makePolicy retries (Provider.client rules) policyName policyDocument p).state).state.policies
          "Custom" (rules.toLower policyName) = some pol2 ∧
      pol2.versions.filter StoredVersion.IsDefaultVersion = [v] ∧
      v.PolicyDocument = policyDocument.stringify) ∧
    ∀ (σ : Type) (ram : RamClient σ) (times : Nat) (exists_ : Bool) (s : σ),
      ∀ ev ∈ (makePolicyAttempt ram policyName policyDocument times exists_ s).events,
        (∀ n d doc, ev.call = .createPolicy n d doc →
          n = policyName ∧ doc = policyDocument.stringify) ∧
        (∀ n doc b, ev.call = .createPolicyVersion n doc b →
          n = policyName ∧ doc = policyDocument.stringify ∧ b = true) := by
  have hgen : ∀ (σ : Type) (ram : RamClient σ) (times : Nat) (exists_ : Bool) (s : σ),
      ∀ ev ∈ (makePolicyAttempt ram policyName policyDocument times exists_ s).events,
        (∀ n d doc, ev.call = .createPolicy n d doc →
          n = policyName ∧ doc = policyDocument.stringify) ∧
        (∀ n doc b, ev.call = .createPolicyVersion n doc b →
          n = policyName ∧ doc = policyDocument.stringify ∧ b = true) :=
    fun σ ram times exists_ s => makePolicyAttempt_events _ ram policyName policyDocument
      (by simp) (by simp) (by simp) (by simp) (by simp) times exists_ s
  cases hpol : p.policies "Custom" (rules.toLower policyName) with
  | none =>
    have h1 := makePolicy_provider_absent rules retries p policyName policyDocument hpol
    have h2 := makePolicy_provider_present rules retries
      (p.setPolicy "Custom" (rules.toLower policyName)
        { Description := "generated by fc fun",
          versions := [{ VersionId := rules.versionId 0, IsDefaultVersion := true,
                         PolicyDocument := policyDocument.stringify }],
          created := 1 })
      policyName policyDocument _ (setPolicy_policies _ _ _ _) (by simp)
      (by simp only [List.filter_cons, List.filter_nil]; simp; omega)
    rw [h1]
    simp only [h2, List.length_singleton, true_and]
    exact ⟨⟨_, _, setPolicy_policies _ _ _ _, filter_default_after_create rules _ _ _, rfl⟩, hgen⟩
  | some pol =>
    obtain ⟨hnd, hfresh, hone, hcap⟩ := hwf pol hpol
    have h1 := makePolicy_provider_present rules retries p policyName policyDocument pol hpol hnd
      (by omega)
    have h2 := makePolicy_provider_present rules retries
      (p.setPolicy "Custom" (rules.toLower policyName)
        { pol with
          versions := (pol.versions.filter StoredVersion.IsDefaultVersion).map StoredVersion.demote ++
            [newDefaultVersion rules pol policyDocument.stringify],
          created := pol.created + 1 })
      policyName policyDocument _ (setPolicy_policies _ _ _ _)
      (by
        simp only [List.map_append, map_versionId_demote, List.map_cons, List.map_nil]
        rw [List.nodup_append]
        refine ⟨(hnd.sublist (List.Sublist.map _ (List.filter_sublist _))), by simp, ?_⟩
        intro a ha hb
        simp only [List.mem_singleton] at hb
        subst hb
        apply hfresh
        simp only [List.mem_map, List.mem_filter] at ha ⊢
        obtain ⟨w, ⟨hw, _⟩, heq⟩ := ha
        exact ⟨w, hw, heq⟩)
      (by rw [filter_default_after_create]; simp; omega)
    rw [h1]
    simp only [h2, List.length_singleton, true_and]
    exact ⟨⟨_, _, setPolicy_policies _ _ _ _, filter_default_after_create rules _ _ _, rfl⟩, hgen⟩

/-- Witness for C2: two calls on the sample provider, where `p1` is stored. -/
theorem makePolicy_twice_witness :
    (makePolicy 2 (Provider.client sampleRules) "p1" sampleDocument
      (makePolicy 2 (Provider.client sampleRules) "p1" sampleDocument sampleProvider).state).result
        = .ok () :=
  (makePolicy_twice sampleRules 2 sampleProvider "p1" sampleDocument (by decide)
    (by
      intro pol hpol
      have h : sampleProvider.policies "Custom" (sampleRules.toLower "p1") = some samplePolicy := by
        decide
      rw [h] at hpol
      have hsame : pol = samplePolicy := (Option.some.inj hpol).symm
      subst hsame
      exact ⟨by decide, by decide, by decide, by decide⟩)).2.2.1

/-! ## Creating an absent policy -/

/-- C6: when `getPolicy` raises `EntityNotExist.Policy` and the `createPolicy`
that follows succeeds, `makePolicy` succeeds after a single invocation whose
remote calls are exactly `getPolicy` and one `createPolicy` carrying the given
name, the fixed description and `JSON.stringify` of the given document; no
`listPolicyVersions`, `deletePolicyVersion` or `createPolicyVersion` is issued. -/
theorem makePolicy_creates_absent_policy {σ : Type} (retries : Nat) (ram : RamClient σ)
    (policyName : String) (policyDocument : Json) (s s1 s2 : σ) (ex : Err)
    (hget : ram.getPolicy "Custom" policyName s = (.error ex, s1))
    (hcode : ex.code = some "EntityNotExist.Policy")
    (hcreate : ram.createPolicy policyName "generated by fc fun" policyDocument.stringify s1
      = (.ok (), s2)) :
    (makePolicy retries ram policyName policyDocument s).result = .ok () ∧
    (makePolicy retries ram policyName policyDocument s).state = s2 ∧
    (makePolicy retries ram policyName policyDocument s).attempts =
      [[{ call := .getPolicy "Custom" policyName, error := some ex },
        { call := .createPolicy policyName "generated by fc fun" policyDocument.stringify,
          error := none }]] ∧
    ((makePolicy retries ram policyName policyDocument s).attempts.flatten.filter
      (fun ev => match ev.call with
        | .createPolicy _ _ _ => true
        | _ => false)).length = 1 ∧
    ∀ ev ∈ (makePolicy retries ram policyName policyDocument s).attempts.flatten,
      (∀ t n, ev.call ≠ .listPolicyVersions t n) ∧ (∀ n v, ev.call ≠ .deletePolicyVersion n v) ∧
      (∀ n d b, ev.call ≠ .createPolicyVersion n d b) := by
  have hrun : makePolicy retries ram policyName policyDocument s =
      { result := .ok (), vars := false, state := s2,
        attempts := [[{ call := .getPolicy "Custom" policyName, error := some ex },
          { call := .createPolicy policyName "generated by fc fun" policyDocument.stringify,
            error := none }]] } := by
    unfold makePolicy promiseRetry
    rw [promiseRetryFrom_resolved _ _ _ _ _ ()]
    · simp [makePolicyAttempt, makePolicyTry, makePolicyBranch, request, Step.after, hget, hcode,
        hcreate, errorOf]
    · simp [makePolicyAttempt, makePolicyTry, makePolicyBranch, request, Step.after, hget, hcode,
        hcreate]
  rw [hrun]
  simp

/-- Witness for C6: the policy `p1` is created in a provider that stores nothing. -/
theorem makePolicy_creates_absent_policy_witness :
    (makePolicy 2 (Provider.client sampleRules) "p1" sampleDocument emptyProvider).result = .ok () ∧
    (makePolicy 2 (Provider.client sampleRules) "p1" sampleDocument emptyProvider).attempts =
      [[{ call := .getPolicy "Custom" "p1", error := some policyNotExist },
        { call := .createPolicy "p1" "generated by fc fun" sampleDocument.stringify,
          error := none }]] :=
  have h := makePolicy_creates_absent_policy 2 (Provider.client sampleRules) "p1" sampleDocument
    emptyProvider emptyProvider
    (emptyProvider.setPolicy "Custom" "p1"
      { Description := "generated by fc fun",
        versions := [{ VersionId := "v", IsDefaultVersion := true,
                       PolicyDocument := sampleDocument.stringify }],
        created := 1 })
    policyNotExist rfl rfl rfl
  ⟨h.1, h.2.2.1⟩

/-! ## Roles -/

/-- C7: when `getRole` raises the not-found error (name `EntityNotExist.RoleError`)
on every invocation (in every provider state the call can be made in, given by
an invariant `absent` that the failing call keeps), `makeRole` with
`createRoleIfNotExist = false` fails with the error `role <roleName> not exist`,
for every bound of the retry driver, every description and every trust
document, and no `createRole` call is issued: every invocation consists of the
`getRole` call alone. -/
theorem makeRole_absent_without_create {σ : Type} (ram : RamClient σ) (roleName : String)
    (absent : σ → Prop)
    (hget : ∀ s, absent s → ∃ ex, (ram.getRole roleName s).1 = .error ex ∧
      ex.name = "EntityNotExist.RoleError" ∧ absent (ram.getRole roleName s).2)
    (retries : Nat) (description : Option String) (assumeRolePolicy : Option Json) (s : σ)
    (hs : absent s) :
    (makeRole retries ram roleName false description assumeRolePolicy s).result =
      .error { code := none, name := "Error", message := "role " ++ roleName ++ " not exist" } ∧
    (∀ ev ∈ (makeRole retries ram roleName false description assumeRolePolicy s).events,
      ∀ n d a, ev.call ≠ .createRole n d a) ∧
    (makeRoleRetry retries ram roleName false description assumeRolePolicy s).attempts.length =
      retries + 1 ∧
    ∀ evs ∈ (makeRoleRetry retries ram roleName false description assumeRolePolicy s).attempts,
      ∃ ex, evs = [{ call := .getRole roleName, error := some ex }] := by
  have hattempt : ∀ (d : String) (times : Nat) (vars : MakeRoleVars) (s : σ), absent s →
      (makeRoleAttempt ram roleName false d times vars s).outcome =
        .retry (Err.plain ("role " ++ roleName ++ " not exist")) ∧
      (∃ ex, (makeRoleAttempt ram roleName false d times vars s).events =
        [{ call := .getRole roleName, error := some ex }]) ∧
      absent (makeRoleAttempt ram roleName false d times vars s).state := by
    intro d times vars s hs
    obtain ⟨ex, h1, h2, h3⟩ := hget s hs
    refine ⟨?_, ⟨ex, ?_⟩, ?_⟩
    · simp [makeRoleAttempt, getRamRole, request, h1, h2, catchMakeRole, Err.plain,
        Err.isInvalidParameter, Err.isNoPermission]
    · simp [makeRoleAttempt, getRamRole, request, h1, h2, errorOf]
    · simpa [makeRoleAttempt, getRamRole, request, h1, h2] using h3
  have hrun := promiseRetryFrom_always_retry
    (makeRoleAttempt ram roleName false (description.getD "FunctionCompute Default Role"))
    (fun _ s => absent s) (Err.plain ("role " ++ roleName ++ " not exist"))
    (fun t v s hs => ⟨(hattempt _ t v s hs).1, (hattempt _ t v s hs).2.2⟩)
    retries 1 { role := none, assumeRolePolicy := assumeRolePolicy } s hs
  have hall := promiseRetryFrom_forall_attempts
    (makeRoleAttempt ram roleName false (description.getD "FunctionCompute Default Role"))
    (fun _ s => absent s)
    (fun evs => ∃ ex, evs = [({ call := .getRole roleName, error := some ex } : Event)])
    (fun t v s hs => ⟨(hattempt _ t v s hs).2.1, (hattempt _ t v s hs).2.2⟩)
    retries 1 { role := none, assumeRolePolicy := assumeRolePolicy } s hs
  refine ⟨?_, ?_, ?_, ?_⟩
  · simp only [makeRole, makeRoleRetry, promiseRetry, hrun.1]
    rfl
  · intro ev hev
    simp only [makeRole, makeRoleRetry, promiseRetry, List.mem_flatten] at hev
    obtain ⟨evs, hevs, hmem⟩ := hev
    obtain ⟨ex, hex⟩ := hall evs hevs
    rw [hex] at hmem
    simp only [List.mem_singleton] at hmem
    subst hmem
    simp
  · simpa [makeRoleRetry, promiseRetry] using hrun.2
  · exact hall

/-- Witness for C7: the sample provider has no role `roleB`. -/
theorem makeRole_absent_without_create_witness :
    (makeRole 2 (Provider.client sampleRules) "roleB" false none none sampleProvider).result =
      .error { code := none, name := "Error", message := "role roleB not exist" } ∧
    (makeRoleRetry 2 (Provider.client sampleRules) "roleB" false none none
      sampleProvider).attempts.length = 3 := by
  have h := makeRole_absent_without_create (Provider.client sampleRules) "roleB"
    (fun p => p.roles "roleB" = none)
    (by
      intro p hp
      refine ⟨roleNotExist, ?_, ?_, ?_⟩
      · simp [Provider.client, hp, roleNotExist]
      · decide
      · simp [Provider.client, hp])
    2 none none sampleProvider (by decide)
  exact ⟨h.1, h.2.2.1⟩

/-- The first invocation of `makeRole` for an absent role with
`createRoleIfNotExist = true`: `getRole`, then `createRole` with the defaulted
trust document. -/
theorem makeRoleAttempt_absent_create {σ : Type} (ram : RamClient σ) (roleName description : String)
    (times : Nat) (vars : MakeRoleVars) (s : σ) (ex : Err)
    (hget : (ram.getRole roleName s).1 = .error ex) (hname : ex.name = "EntityNotExist.RoleError") :
    (makeRoleAttempt ram roleName true description times vars s).events =
      [{ call := .getRole roleName, error := some ex },
       { call := .createRole roleName description
           (defaultedAssumeRolePolicy vars.assumeRolePolicy).stringify,
         error := errorOf (ram.createRole roleName description
           (defaultedAssumeRolePolicy vars.assumeRolePolicy).stringify (ram.getRole roleName s).2).1 }] ∧
    ∀ created, (ram.createRole roleName description
        (defaultedAssumeRolePolicy vars.assumeRolePolicy).stringify (ram.getRole roleName s).2).1
          = .ok created →
      (makeRoleAttempt ram roleName true description times vars s).outcome = .resolved () ∧
      (makeRoleAttempt ram roleName true description times vars s).vars.role = some created ∧
      (makeRoleAttempt ram roleName true description times vars s).state =
        (ram.createRole roleName description
          (defaultedAssumeRolePolicy vars.assumeRolePolicy).stringify (ram.getRole roleName s).2).2 := by
  constructor
  · simp only [makeRoleAttempt, getRamRole, request, hget, hname]
    simp only [ne_eq, not_true_eq_false, ↓reduceIte, Option.isNone_none, Bool.and_self]
    split <;> simp_all [errorOf]
  · intro created hc
    simp only [makeRoleAttempt, getRamRole, request, hget, hname]
    simp [hc]

/-- C8: when the role is absent (`getRole` raises name `EntityNotExist.RoleError`)
and `createRoleIfNotExist` is true, the first invocation of `makeRole` issues,
right after `getRole`, a `createRole` call with the given `RoleName` and
`Description` (the default one when none is given); its `AssumeRolePolicyDocument`
is `JSON.stringify` of the compute-service trust document when no
`assumeRolePolicy` is supplied, and of the supplied document when that is truthy.
When this `createRole` returns, `makeRole` returns its response and has issued
exactly these two calls. -/
theorem makeRole_creates_absent_role {σ : Type} (retries : Nat) (ram : RamClient σ)
    (roleName : String) (description : Option String) (assumeRolePolicy : Option Json)
    (doc : Json) (s : σ) (ex : Err)
    (hget : (ram.getRole roleName s).1 = .error ex) (hname : ex.name = "EntityNotExist.RoleError")
    (hdoc : (assumeRolePolicy = none ∧
        doc = .obj [("Statement", .arr [.obj [("Action", .str "sts:AssumeRole"),
            ("Effect", .str "Allow"),
            ("Principal", .obj [("Service", .arr [.str "fc.aliyuncs.com"])])]]),
          ("Version", .str "1")]) ∨
      (assumeRolePolicy = some doc ∧ doc.truthy = true)) :
    (makeRoleRetry retries ram roleName true description assumeRolePolicy s).attempts.head? =
      some [{ call := .getRole roleName, error := some ex },
        { call := .createRole roleName (description.getD "FunctionCompute Default Role")
            doc.stringify,
          error := errorOf (ram.createRole roleName
            (description.getD "FunctionCompute Default Role") doc.stringify
            (ram.getRole roleName s).2).1 }] ∧
    ∀ created, (ram.createRole roleName (description.getD "FunctionCompute Default Role")
        doc.stringify (ram.getRole roleName s).2).1 = .ok created →
      (makeRole retries ram roleName true description assumeRolePolicy s).result
        = .ok (some created) ∧
      (makeRole retries ram roleName true description assumeRolePolicy s).state =
        (ram.createRole roleName (description.getD "FunctionCompute Default Role")
          doc.stringify (ram.getRole roleName s).2).2 ∧
      (makeRole retries ram roleName true description assumeRolePolicy s).events =
        [{ call := .getRole roleName, error := some ex },
         { call := .createRole roleName (description.getD "FunctionCompute Default Role")
             doc.stringify, error := none }] := by
  have hd : defaultedAssumeRolePolicy assumeRolePolicy = doc := by
    rcases hdoc with ⟨h1, h2⟩ | ⟨h1, h2⟩
    · subst h1 h2
      rfl
    · subst h1
      simp [defaultedAssumeRolePolicy, h2]
  have ha := makeRoleAttempt_absent_create ram roleName
    (description.getD "FunctionCompute Default Role") 1
    { role := none, assumeRolePolicy := assumeRolePolicy } s ex hget hname
  simp only [hd] at ha
  constructor
  · unfold makeRoleRetry promiseRetry
    rw [← ha.1]
    exact promiseRetryFrom_head _ _ _ _ _
  · intro created hc
    obtain ⟨h1, h2, h3⟩ := ha.2 created hc
    have hrun := promiseRetryFrom_resolved
      (makeRoleAttempt ram roleName true (description.getD "FunctionCompute Default Role"))
      retries 1 { role := none, assumeRolePolicy := assumeRolePolicy } s () h1
    simp only [makeRole, makeRoleRetry, promiseRetry, hrun, h2, h3, ha.1, hc, errorOf]
    simp

/-- Witness for C8: creating the role `roleB`, absent from the sample provider,
without a trust document. -/
theorem makeRole_creates_absent_role_witness :
    (makeRole 2 (Provider.client sampleRules) "roleB" true none none sampleProvider).events =
      [{ call := .getRole "roleB", error := some roleNotExist },
       { call := .createRole "roleB" "FunctionCompute Default Role"
           "\x7b\"Statement\":[\x7b\"Action\":\"sts:AssumeRole\",\"Effect\":\"Allow\",\"Principal\":\x7b\"Service\":[\"fc.aliyuncs.com\"]\x7d\x7d],\"Version\":\"1\"\x7d",
         error := none }] :=
  ((makeRole_creates_absent_role 2 (Provider.client sampleRules) "roleB" none none
    fcAssumeRolePolicy sampleProvider roleNotExist (by decide) (by decide)
    (Or.inl ⟨rfl, rfl⟩)).2
    { RoleName := "roleB", Description := "FunctionCompute Default Role",
      AssumeRolePolicyDocument := fcAssumeRolePolicy.stringify } (by decide)).2.2

end Ram

